import Mathlib

/-!
# Verification of the three-stage documentation pipeline

Shallow embedding of the ITValley-School/langchain_IA repository:

* `src/main.py` — the Streamlit app: the JSON-recovery function
  `ensure_json_response`, the three-stage generation pipeline
  `generate_documentation`, and the button handler.
* `src/pdf_generator.py` — the PDF renderer `DocumentacaoTecnicaPDF`
  (`create_pdf` and its three section builders) and the helper `gerar_pdf`.

Python values flowing through the pipeline are modelled by `PyVal`; the
Python standard library's `json.loads` / `json.dumps` (the only library
behaviour the pipeline's logic depends on) are modelled by an executable
character-level parser `json_loads` and printer `json_dumps` below,
following the CPython `json` module:

* parsing is strict (whole input must be consumed up to trailing
  whitespace), with the two-tier whitespace discipline of the C scanner;
* object literals deduplicate keys the way `dict` assignment does
  (last value wins, first position kept);
* numbers are modelled as integers only (the generator's schemas use
  strings and integer-like tokens; `float` literals, which are outside
  these claims, are rejected rather than approximated);
* `\uXXXX` escapes are decoded, surrogate pairs combined; lone
  surrogates (unrepresentable in a Lean `Char`) are rejected;
* `json.dumps` is modelled with both call shapes used by `main.py`:
  the default one (`ensure_ascii=True`, no indent, separators `", "`
  and `": "`) used to feed a stage's result forward, and the export one
  (`indent=2`, `ensure_ascii=False`) used for the combined download.

A Python function that can raise is modelled in `Except String`; the
value `None` that `ensure_json_response` returns when it falls off the
end of the function body is `PyVal.none` (the same value `json.loads`
produces for the text `null`, exactly as in Python).
-/

/-- A Python value as it appears in this pipeline: the result of
`json.loads`, or `None`.  Dictionaries are association lists in insertion
order, as CPython dicts are. -/
inductive PyVal where
  | none
  | bool (b : Bool)
  | int (n : Int)
  | str (s : String)
  | list (xs : List PyVal)
  | dict (kvs : List (String × PyVal))
deriving Repr

/-! ## Decidable equality for `PyVal` -/

mutual

/-- Structural equality of two Python values (the `==` of this fragment). -/
def PyVal.beq : PyVal → PyVal → Bool
  | .none, .none => true
  | .bool a, .bool b => a = b
  | .int a, .int b => a = b
  | .str a, .str b => a = b
  | .list a, .list b => PyVal.beqList a b
  | .dict a, .dict b => PyVal.beqPairs a b
  | _, _ => false

/-- Elementwise equality of two value lists. -/
def PyVal.beqList : List PyVal → List PyVal → Bool
  | [], [] => true
  | a :: as_, b :: bs => PyVal.beq a b && PyVal.beqList as_ bs
  | _, _ => false

/-- Elementwise equality of two key/value lists. -/
def PyVal.beqPairs : List (String × PyVal) → List (String × PyVal) → Bool
  | [], [] => true
  | (ka, va) :: as_, (kb, vb) :: bs =>
      ka = kb && PyVal.beq va vb && PyVal.beqPairs as_ bs
  | _, _ => false

end

mutual

theorem PyVal.beq_iff : ∀ a b : PyVal, PyVal.beq a b = true ↔ a = b
  | .none, b => by cases b <;> simp [PyVal.beq]
  | .bool x, b => by cases b <;> simp [PyVal.beq]
  | .int x, b => by cases b <;> simp [PyVal.beq]
  | .str x, b => by cases b <;> simp [PyVal.beq]
  | .list xs, b => by
      cases b <;> simp [PyVal.beq]
      exact PyVal.beqList_iff xs _
  | .dict kvs, b => by
      cases b <;> simp [PyVal.beq]
      exact PyVal.beqPairs_iff kvs _

theorem PyVal.beqList_iff : ∀ a b : List PyVal, PyVal.beqList a b = true ↔ a = b
  | [], b => by cases b <;> simp [PyVal.beqList]
  | x :: xs, b => by
      cases b with
      | nil => simp [PyVal.beqList]
      | cons y ys =>
          simp [PyVal.beqList, Bool.and_eq_true, PyVal.beq_iff x y,
            PyVal.beqList_iff xs ys]

theorem PyVal.beqPairs_iff :
    ∀ a b : List (String × PyVal), PyVal.beqPairs a b = true ↔ a = b
  | [], b => by cases b <;> simp [PyVal.beqPairs]
  | (k, v) :: xs, b => by
      cases b with
      | nil => simp [PyVal.beqPairs]
      | cons y ys =>
          obtain ⟨k2, v2⟩ := y
          simp [PyVal.beqPairs, Bool.and_eq_true, PyVal.beq_iff v v2,
            PyVal.beqPairs_iff xs ys, and_assoc]

end

instance : DecidableEq PyVal := fun a b =>
  decidable_of_iff (PyVal.beq a b = true) (PyVal.beq_iff a b)

/-! ## The JSON text model: lexing helpers -/

/-- The whitespace characters `json.loads` skips between tokens. -/
def jsonWs (c : Char) : Bool := c = ' ' || c = '\t' || c = '\n' || c = '\r'

/-- A decimal digit character (code points 48–57). -/
def decDigit (c : Char) : Bool := 48 ≤ c.toNat && c.toNat ≤ 57

/-- Drop the leading run of JSON whitespace. -/
def dropWs : List Char → List Char
  | c :: cs => if jsonWs c then dropWs cs else c :: cs
  | [] => []

/-- The longest leading run of decimal digits, and the remainder. -/
def digitSpan : List Char → List Char × List Char
  | c :: cs =>
      if decDigit c then
        let (ds, r) := digitSpan cs
        (c :: ds, r)
      else ([], c :: cs)
  | [] => ([], [])

/-- The natural number a digit run denotes (most significant first). -/
def digitsVal (ds : List Char) : Nat :=
  ds.foldl (fun acc c => acc * 10 + (c.toNat - 48)) 0

/-- The value of one hexadecimal digit, if it is one. -/
def hexDigitVal (c : Char) : Option Nat :=
  if '0' ≤ c && c ≤ '9' then some (c.toNat - 48)
  else if 'a' ≤ c && c ≤ 'f' then some (c.toNat - 87)
  else if 'A' ≤ c && c ≤ 'F' then some (c.toNat - 55)
  else Option.none

/-- Decode four hexadecimal digits, most significant first. -/
def hexQuad (a b c d : Char) : Option Nat := do
  let x ← hexDigitVal a
  let y ← hexDigitVal b
  let z ← hexDigitVal c
  let w ← hexDigitVal d
  return ((x * 16 + y) * 16 + z) * 16 + w

/-- The JSON integer token, per the scanner's `NUMBER_RE` integer part
`-?(0|[1-9]\d*)`: after a leading `0` no further digits are taken, so
`01` is never one token.  (No fraction or exponent part: see the header.) -/
def intToken (cs : List Char) : Option (Int × List Char) :=
  let (neg, cs1) : Bool × List Char :=
    match cs with
    | '-' :: r => (true, r)
    | _ => (false, cs)
  match cs1 with
  | '0' :: r => some (0, r)
  | c :: r =>
      if decDigit c && c ≠ '0' then
        let (ds, r2) := digitSpan r
        let m : Int := Int.ofNat (digitsVal (c :: ds))
        some (if neg then -m else m, r2)
      else Option.none
  | [] => Option.none

/-- The decoded character of a two-character escape (`\\b` is backspace,
`\\f` form feed), if legal. -/
def escapeShort : Char → Option Char
  | '"' => some '"'
  | '\\' => some '\\'
  | '/' => some '/'
  | 'b' => some (Char.ofNat 8)
  | 'f' => some (Char.ofNat 12)
  | 'n' => some '\n'
  | 'r' => some '\r'
  | 't' => some '\t'
  | _ => Option.none

mutual

/-- The body of a string literal after its opening quote, in the strict
mode of `json.loads`: raw control characters are rejected, the short
escapes and `\uXXXX` (with surrogate pairs combined) are decoded.
`escSeq` handles the text after a backslash, `uSeq` the text after
`\u`. -/
def stringBody (acc : List Char) : List Char → Option (String × List Char)
  | [] => Option.none
  | ch :: rest =>
      if ch = '"' then some (String.mk acc.reverse, rest)
      else if ch = '\\' then escSeq acc rest
      else if ch.toNat < 0x20 then Option.none
      else stringBody (ch :: acc) rest
termination_by structural cs => cs

/-- The text after a backslash inside a string literal. -/
def escSeq (acc : List Char) : List Char → Option (String × List Char)
  | [] => Option.none
  | e :: rest =>
      if e = 'u' then uSeq acc rest
      else
        match escapeShort e with
        | some x => stringBody (x :: acc) rest
        | _ => Option.none
termination_by structural cs => cs

/-- The text after `\u` inside a string literal: four hexadecimal
digits, then possibly a second escape completing a surrogate pair. -/
def uSeq (acc : List Char) : List Char → Option (String × List Char)
  | a :: b :: c :: d :: rest =>
      match hexQuad a b c d with
      | some n =>
          if n < 0xd800 || 0xdfff < n then
            stringBody (Char.ofNat n :: acc) rest
          else if n ≤ 0xdbff then pairSeq acc n rest
          else Option.none
      | _ => Option.none
  | _ => Option.none
termination_by structural cs => cs

/-- The continuation after a high surrogate: a second `\\uXXXX` escape
holding the low half, combined into one code point. -/
def pairSeq (acc : List Char) (n : Nat) : List Char → Option (String × List Char)
  | e1 :: e2 :: a2 :: b2 :: c2 :: d2 :: rest2 =>
      if e1 = '\\' && e2 = 'u' then
        match hexQuad a2 b2 c2 d2 with
        | some m =>
            if 0xdc00 ≤ m && m ≤ 0xdfff then
              stringBody
                (Char.ofNat
                  (0x10000 + (n - 0xd800) * 0x400 + (m - 0xdc00)) :: acc)
                rest2
            else Option.none
        | _ => Option.none
      else Option.none
  | _ => Option.none
termination_by structural cs => cs

end

/-- Insert a key into an association list the way `d[k] = v` does on a
CPython dict: an existing key keeps its position and takes the new value,
a new key goes to the end. -/
def dictPut (kvs : List (String × PyVal)) (k : String) (v : PyVal) :
    List (String × PyVal) :=
  match kvs with
  | [] => [(k, v)]
  | (k2, v2) :: rest =>
      if k2 = k then (k2, v) :: rest else (k2, v2) :: dictPut rest k v

/-- Assemble an object's parsed members into a dict, left to right. -/
def dictOfPairs (pairs : List (String × PyVal)) : List (String × PyVal) :=
  pairs.foldl (fun acc kv => dictPut acc kv.1 kv.2) []

mutual

/-- One JSON value at the head of the input (whitespace already skipped),
structurally recursive on a fuel counter.  Mirrors the CPython
`scan_once`. -/
def jsonValue : Nat → List Char → Option (PyVal × List Char)
  | 0, _ => Option.none
  | fuel + 1, cs =>
      match cs with
      | 'n' :: 'u' :: 'l' :: 'l' :: r => some (PyVal.none, r)
      | 't' :: 'r' :: 'u' :: 'e' :: r => some (PyVal.bool true, r)
      | 'f' :: 'a' :: 'l' :: 's' :: 'e' :: r => some (PyVal.bool false, r)
      | '"' :: r =>
          match stringBody [] r with
          | some (s, r2) => some (PyVal.str s, r2)
          | _ => Option.none
      | '[' :: r =>
          match dropWs r with
          | ']' :: r2 => some (PyVal.list [], r2)
          | cs2 =>
              match jsonItems fuel cs2 with
              | some (xs, r2) => some (PyVal.list xs, r2)
              | _ => Option.none
      | '{' :: r =>
          match dropWs r with
          | '}' :: r2 => some (PyVal.dict [], r2)
          | cs2 =>
              match jsonPairs fuel cs2 with
              | some (ps, r2) => some (PyVal.dict (dictOfPairs ps), r2)
              | _ => Option.none
      | _ =>
          match intToken cs with
          | some (n, r) => some (PyVal.int n, r)
          | _ => Option.none

/-- The elements of an array (positioned at a value), up to and including
the closing `]`. -/
def jsonItems : Nat → List Char → Option (List PyVal × List Char)
  | 0, _ => Option.none
  | fuel + 1, cs =>
      match jsonValue fuel cs with
      | some (v, r) =>
          match dropWs r with
          | ',' :: r2 =>
              match jsonItems fuel (dropWs r2) with
              | some (vs, r3) => some (v :: vs, r3)
              | _ => Option.none
          | ']' :: r2 => some ([v], r2)
          | _ => Option.none
      | _ => Option.none

/-- The members of an object (positioned at a key), up to and including
the closing `}`. -/
def jsonPairs : Nat → List Char → Option (List (String × PyVal) × List Char)
  | 0, _ => Option.none
  | fuel + 1, cs =>
      match cs with
      | '"' :: r =>
          match stringBody [] r with
          | some (k, r1) =>
              match dropWs r1 with
              | ':' :: r2 =>
                  match jsonValue fuel (dropWs r2) with
                  | some (v, r3) =>
                      match dropWs r3 with
                      | ',' :: r4 =>
                          match jsonPairs fuel (dropWs r4) with
                          | some (ps, r5) => some ((k, v) :: ps, r5)
                          | _ => Option.none
                      | '}' :: r4 => some ([(k, v)], r4)
                      | _ => Option.none
                  | _ => Option.none
              | _ => Option.none
          | _ => Option.none
      | _ => Option.none

end

/-- `json.loads`: parse the whole text as one JSON value, allowing only
whitespace around it; `Option.none` is a `JSONDecodeError`.  The fuel
`2·|s| + 2` dominates the parser's recursion (each nesting level and each
element costs two ticks and consumes at least one character). -/
def json_loads (s : String) : Option PyVal :=
  match jsonValue (2 * s.data.length + 2) (dropWs s.data) with
  | some (v, r) => if dropWs r = [] then some v else Option.none
  | _ => Option.none

/-! ## The JSON printer: the two `json.dumps` call shapes of `main.py` -/

/-- A hexadecimal digit character, lowercase, as `"%04x" % n` prints. -/
def hexDigitChar (n : Nat) : Char :=
  if n < 10 then Char.ofNat (48 + n) else Char.ofNat (87 + n)

/-- A `\uXXXX` escape for a code point below `0x10000`. -/
def uEscape (n : Nat) : List Char :=
  ['\\', 'u', hexDigitChar (n / 4096 % 16), hexDigitChar (n / 256 % 16),
   hexDigitChar (n / 16 % 16), hexDigitChar (n % 16)]

/-- One character of a string literal as the `json` encoder emits it:
the two-character escapes, `\u00XX` for the remaining control
characters, and — when `ensure_ascii` — `\uXXXX` (or a surrogate pair)
for everything outside printable ASCII. -/
def escapeChar (ascii : Bool) (c : Char) : List Char :=
  if c = '"' then ['\\', '"']
  else if c = '\\' then ['\\', '\\']
  else if c = '\n' then ['\\', 'n']
  else if c = '\r' then ['\\', 'r']
  else if c = '\t' then ['\\', 't']
  else if c.toNat = 8 then ['\\', 'b']
  else if c.toNat = 12 then ['\\', 'f']
  else if c.toNat < 0x20 then uEscape c.toNat
  else if ascii && 0x7e < c.toNat then
    if c.toNat < 0x10000 then uEscape c.toNat
    else
      uEscape (0xd800 + (c.toNat - 0x10000) / 0x400) ++
        uEscape (0xdc00 + (c.toNat - 0x10000) % 0x400)
  else [c]

/-- A whole string literal, quotes included. -/
def stringLit (ascii : Bool) (s : String) : List Char :=
  '"' :: (s.data.flatMap (escapeChar ascii) ++ ['"'])

/-- Decimal digit characters of `n`, most significant first, onto `acc`;
structurally recursive on a fuel that `n` itself always covers. -/
def natCharsAux : Nat → Nat → List Char → List Char
  | 0, n, acc => Char.ofNat (48 + n % 10) :: acc
  | fuel + 1, n, acc =>
      if n < 10 then Char.ofNat (48 + n) :: acc
      else natCharsAux fuel (n / 10) (Char.ofNat (48 + n % 10) :: acc)

/-- Decimal digit characters of a natural number. -/
def natChars (n : Nat) : List Char := natCharsAux n n []

/-- Decimal characters of an integer, as `repr(int)` prints it. -/
def intChars (n : Int) : List Char :=
  if n < 0 then '-' :: natChars n.natAbs else natChars n.natAbs

/-- The newline-plus-indentation the encoder inserts after an opening
bracket and after each item separator; empty when `indent` is `none`. -/
def newlinePad (indent : Option Nat) (level : Nat) : List Char :=
  match indent with
  | some n => '\n' :: List.replicate (level * n) ' '
  | _ => []

/-- The separator between two items: `", "` in the default call shape,
`","` plus newline and indentation in the indented one. -/
def itemSepa (indent : Option Nat) (level : Nat) : List Char :=
  match indent with
  | some n => ',' :: '\n' :: List.replicate (level * n) ' '
  | _ => [',', ' ']

mutual

/-- `json.dumps` of one value at nesting `level`. -/
def dumpVal (ascii : Bool) (indent : Option Nat) (level : Nat) :
    PyVal → List Char
  | .none => "null".data
  | .bool true => "true".data
  | .bool false => "false".data
  | .int n => intChars n
  | .str s => stringLit ascii s
  | .list [] => ['[', ']']
  | .list (x :: xs) =>
      '[' :: (newlinePad indent (level + 1) ++
        ((dumpVal ascii indent (level + 1) x ++
            dumpItemsTail ascii indent (level + 1) xs) ++
          (newlinePad indent level ++ [']'])))
  | .dict [] => ['{', '}']
  | .dict ((k, v) :: kvs) =>
      '{' :: (newlinePad indent (level + 1) ++
        ((stringLit ascii k ++
            (':' :: ' ' :: dumpVal ascii indent (level + 1) v) ++
            dumpPairsTail ascii indent (level + 1) kvs) ++
          (newlinePad indent level ++ ['}'])))

/-- Separator-prefixed remaining items of a nonempty array. -/
def dumpItemsTail (ascii : Bool) (indent : Option Nat) (level : Nat) :
    List PyVal → List Char
  | [] => []
  | x :: xs =>
      itemSepa indent level ++
        (dumpVal ascii indent level x ++ dumpItemsTail ascii indent level xs)

/-- Separator-prefixed remaining `"key": value` members of an object. -/
def dumpPairsTail (ascii : Bool) (indent : Option Nat) (level : Nat) :
    List (String × PyVal) → List Char
  | [] => []
  | (k, v) :: kvs =>
      itemSepa indent level ++
        (stringLit ascii k ++
          (':' :: ' ' :: dumpVal ascii indent level v) ++
          dumpPairsTail ascii indent level kvs)

end

/-- `json.dumps(v)` with the defaults, as `main.py` serializes a stage's
result to feed it to the next stage. -/
def json_dumps (v : PyVal) : String :=
  String.mk (dumpVal true Option.none 0 v)

/-- `json.dumps(v, indent=2, ensure_ascii=False)`, as `main.py` builds
the combined JSON download. -/
def json_dumps_pretty (v : PyVal) : String :=
  String.mk (dumpVal false (some 2) 0 v)

/-! ## `ensure_json_response` (`src/main.py` lines 94–115) -/

/-- `str.find`: index of the first occurrence, `-1` when absent. -/
def str_find (s : String) (c : Char) : Int :=
  let rec go : List Char → Nat → Int
    | [], _ => -1
    | x :: xs, i => if x = c then Int.ofNat i else go xs (i + 1)
  go s.data 0

/-- `str.rfind`: index of the last occurrence, `-1` when absent. -/
def str_rfind (s : String) (c : Char) : Int :=
  match str_find ⟨s.data.reverse⟩ c with
  | -1 => -1
  | i => Int.ofNat s.data.length - 1 - i

/-- `s[a:b]` for the nonnegative indices this code produces. -/
def pySlice (s : String) (a b : Int) : String :=
  String.mk ((s.data.take b.toNat).drop a.toNat)

/-- The fallback object `ensure_json_response` builds when the sliced
parse raises. -/
def error_marker (response : String) : PyVal :=
  PyVal.dict
    [("erro", PyVal.str "Não foi possível gerar um JSON válido"),
     ("resposta_original", PyVal.str response)]

/-- The second recovery tier on its own: the text from the first `{`
through the last `}`, parsed — `json.loads(response[start_idx:end_idx])`
guarded by `start_idx != -1 and end_idx != 0`. -/
def brace_slice_loads (response : String) : Option PyVal :=
  let start_idx := str_find response '{'
  let end_idx := str_rfind response '}' + 1
  if start_idx ≠ -1 ∧ end_idx ≠ 0 then
    json_loads (pySlice response start_idx end_idx)
  else Option.none

/-- `ensure_json_response` (`src/main.py` lines 94–115), translated
control path by control path:

* a successful direct parse returns;
* on `JSONDecodeError`, if both braces are found the slice is parsed,
  returning the parsed value, or the error-marker object if that parse
  raises (the bare `except`);
* **but** if either brace is missing, the inner `if` guard is false, no
  exception is raised, and the function falls off its body — returning
  Python's `None`, modelled as `PyVal.none`. -/
def ensure_json_response (response : String) : PyVal :=
  match json_loads response with
  | some v => v
  | _ =>
      let start_idx := str_find response '{'
      let end_idx := str_rfind response '}' + 1
      if start_idx ≠ -1 ∧ end_idx ≠ 0 then
        match json_loads (pySlice response start_idx end_idx) with
        | some v => v
        | _ => error_marker response
      else PyVal.none

/-! ## The three-stage pipeline (`src/main.py` lines 117–215)

The model API (`ChatOpenAI` behind the three LangChain chains) is the
pipeline's only collaborator; it is a parameter `llm` mapping a stage
number (1 = requisitos, 2 = fluxo, 3 = apis) and the stage's input
payload — the text substituted into that stage's prompt template — to
the model's raw text, or to the message of a raised exception.  The
temperature and model-name widgets only configure this collaborator and
carry no pipeline logic, so they are absorbed into `llm`.  Everything
`st.*` displays is collected into `messages`; the combined JSON
download's content is `downloadJson`. -/

/-- The observable outcome of one click of the generate button. -/
structure RunOutput where
  /-- Every model invocation made, in order: stage number and the input
  payload handed to that stage's prompt template. -/
  invoked : List (Nat × String)
  /-- The recovered per-stage values (`requisitos_json`, `fluxo_json`,
  `apis_json`), in order, as far as the run got. -/
  results : List PyVal
  /-- The content of the combined JSON download button, when the run got
  that far. -/
  downloadJson : Option String
  /-- Every `st.error` / `st.warning` / `st.info` text shown. -/
  messages : List String
deriving Repr, DecidableEq

/-- The combined JSON artifact (`src/main.py` lines 186–190):
`json.dumps({"requisitos": .., "fluxo_componentes": .., "mapa_apis": ..},
indent=2, ensure_ascii=False)`. -/
def combined_json_download (requisitos_json fluxo_json apis_json : PyVal) :
    String :=
  json_dumps_pretty
    (PyVal.dict
      [("requisitos", requisitos_json),
       ("fluxo_componentes", fluxo_json),
       ("mapa_apis", apis_json)])

/-- The two messages of the inner `except` (lines 196–198). -/
def stage_error_messages (e : String) : List String :=
  ["Erro ao processar etapa: " ++ e,
   "Tente ajustar a temperatura ou usar um modelo diferente."]

/-! ## Python dictionary and iteration primitives for the renderer -/

/-- Lookup in an association list (CPython dict lookup). -/
def assocFind (kvs : List (String × PyVal)) (k : String) : Option PyVal :=
  match kvs with
  | [] => Option.none
  | (k2, v) :: rest => if k2 = k then some v else assocFind rest k

/-- `v[k]` for a string key: a `KeyError` on a dict without the key, a
`TypeError` on anything that is not a dict. -/
def getItem (v : PyVal) (k : String) : Except String PyVal :=
  match v with
  | .dict kvs =>
      match assocFind kvs k with
      | some x => .ok x
      | _ => .error ("KeyError: " ++ k)
  | _ => .error ("TypeError: value does not take the string key " ++ k)

/-- `v.get(k, dflt)`: only dicts have the method. -/
def dictGet (v : PyVal) (k : String) (dflt : PyVal) : Except String PyVal :=
  match v with
  | .dict kvs => .ok ((assocFind kvs k).getD dflt)
  | _ => .error ("AttributeError: no attribute get")

/-- `k in v` for a string `k`: key test on dicts, membership on lists,
substring test on strings, a `TypeError` otherwise. -/
def pyInOp (k : String) (v : PyVal) : Except String Bool :=
  match v with
  | .dict kvs => .ok (kvs.any fun kv => kv.1 = k)
  | .list xs => .ok (xs.any fun x => x = PyVal.str k)
  | .str s => .ok ((s.data.tails.any fun t => k.data.isPrefixOf t))
  | _ => .error "TypeError: argument is not a container"

/-- `for x in v`: list elements, dict keys, or a string's characters. -/
def pyIterate (v : PyVal) : Except String (List PyVal) :=
  match v with
  | .list xs => .ok xs
  | .dict kvs => .ok (kvs.map fun kv => PyVal.str kv.1)
  | .str s => .ok (s.data.map fun c => PyVal.str (String.mk [c]))
  | _ => .error "TypeError: value is not iterable"

/-- `v.items()`: only dicts have it. -/
def pyItems (v : PyVal) : Except String (List (String × PyVal)) :=
  match v with
  | .dict kvs => .ok kvs
  | _ => .error "AttributeError: no attribute items"

/-- Python truthiness of the modelled values. -/
def pyTruthy : PyVal → Bool
  | .none => false
  | .bool b => b
  | .int n => n ≠ 0
  | .str s => s ≠ ""
  | .list xs => xs ≠ []
  | .dict kvs => kvs ≠ []

/-- A single-quote character, written by code point to keep the file's
literals apostrophe-free. -/
def sqChar : Char := Char.ofNat 39

mutual

/-- `repr` of a value, as `str` of a container prints its elements:
strings get single quotes, `None`/`True`/`False` their Python names.
(Escapes inside `repr` of a string are not modelled; no claim looks at
the rendered text of a container field.) -/
def pyReprV : PyVal → String
  | .none => "None"
  | .bool true => "True"
  | .bool false => "False"
  | .int n => String.mk (intChars n)
  | .str s => String.mk (sqChar :: s.data ++ [sqChar])
  | .list xs => "[" ++ pyReprItems xs ++ "]"
  | .dict kvs => String.mk ['\x7b'] ++ pyReprPairs kvs ++ String.mk ['\x7d']

/-- Comma-separated `repr`s of list elements. -/
def pyReprItems : List PyVal → String
  | [] => ""
  | [x] => pyReprV x
  | x :: xs => pyReprV x ++ ", " ++ pyReprItems xs

/-- Comma-separated `repr(k): repr(v)` members of a dict. -/
def pyReprPairs : List (String × PyVal) → String
  | [] => ""
  | [(k, v)] => String.mk (sqChar :: k.data ++ [sqChar]) ++ ": " ++ pyReprV v
  | (k, v) :: kvs =>
      String.mk (sqChar :: k.data ++ [sqChar]) ++ ": " ++ pyReprV v ++ ", " ++
        pyReprPairs kvs

end

/-- `str(v)`, as an f-string interpolates a value. -/
def pyStr : PyVal → String
  | .str s => s
  | v => pyReprV v

/-! ## The document renderer (`src/pdf_generator.py`)

`reportlab` is external: a flowable is modelled as an `Element`
(paragraph with its style name, or spacer), and `doc.build` — which
consumes the element list into the PDF byte stream — as the element
list itself, the renderer's entire observable content.  Every Python
`elements.append` becomes one list element, in the same order; a raised
`KeyError` / `TypeError` / `AttributeError` is an `Except.error`. -/

/-- One flowable appended to `elements`. -/
inductive Element where
  | para (style text : String)
  | spacer (w h : Nat)
deriving Repr, DecidableEq

/-- The blocks of the `requisitos_funcionais` loop (lines 61–64): one
`Normal` paragraph with the ID/description/priority text and a spacer
per requirement. -/
def req_func_blocks : List PyVal → Except String (List Element)
  | [] => .ok []
  | req :: rest => do
      let i ← getItem req "id"
      let d ← getItem req "descricao"
      let p ← getItem req "prioridade"
      let es ← req_func_blocks rest
      .ok (Element.para "Normal"
            ("ID: " ++ pyStr i ++ "\nDescrição: " ++ pyStr d ++
              "\nPrioridade: " ++ pyStr p) ::
          Element.spacer 1 12 :: es)

/-- The blocks of the `requisitos_nao_funcionais` loop (lines 68–71). -/
def req_nao_func_blocks : List PyVal → Except String (List Element)
  | [] => .ok []
  | req :: rest => do
      let i ← getItem req "id"
      let d ← getItem req "descricao"
      let t ← getItem req "tipo"
      let es ← req_nao_func_blocks rest
      .ok (Element.para "Normal"
            ("ID: " ++ pyStr i ++ "\nDescrição: " ++ pyStr d ++
              "\nTipo: " ++ pyStr t) ::
          Element.spacer 1 12 :: es)

/-- `_add_requisitos_section` (lines 54–71): fixed headers, then the two
requirement loops over `.get(…, [])`. -/
def add_requisitos_section (requisitos_json : PyVal) :
    Except String (List Element) := do
  let rf ← dictGet requisitos_json "requisitos_funcionais" (PyVal.list [])
  let rfItems ← pyIterate rf
  let rfBlocks ← req_func_blocks rfItems
  let rnf ← dictGet requisitos_json "requisitos_nao_funcionais" (PyVal.list [])
  let rnfItems ← pyIterate rnf
  let rnfBlocks ← req_nao_func_blocks rnfItems
  .ok (Element.para "Heading2" "1. Requisitos do Sistema" ::
      Element.spacer 1 12 ::
      Element.para "Heading3" "1.1 Requisitos Funcionais" ::
      (rfBlocks ++
        Element.para "Heading3" "1.2 Requisitos Não Funcionais" :: rnfBlocks))

/-- The bullet paragraphs of one `for … in` loop over strings
(responsibilities, dependencies), each `"• " ++ str(x)`. -/
def bullet_blocks (xs : List PyVal) : List Element :=
  xs.map fun x => Element.para "Normal" ("• " ++ pyStr x)

/-- The blocks of the `componentes` loop (lines 78–90). -/
def componente_blocks : List PyVal → Except String (List Element)
  | [] => .ok []
  | comp :: rest => do
      let nome ← getItem comp "nome"
      let descricao ← getItem comp "descricao"
      let resp ← getItem comp "responsabilidades"
      let respItems ← pyIterate resp
      let dep ← getItem comp "dependencias"
      let depItems ← pyIterate dep
      let es ← componente_blocks rest
      .ok (Element.para "Heading3" ("Componente: " ++ pyStr nome) ::
          Element.para "Normal" ("Descrição: " ++ pyStr descricao) ::
          Element.para "Normal" "Responsabilidades:" ::
          (bullet_blocks respItems ++
            Element.para "Normal" "Dependências:" ::
            (bullet_blocks depItems ++ Element.spacer 1 12 :: es)))

/-- The numbered-step paragraphs of one flow
(`enumerate(fluxo['passos'], 1)`, line 97). -/
def passo_blocks (start : Nat) : List PyVal → List Element
  | [] => []
  | p :: ps =>
      Element.para "Normal" (String.mk (natChars start) ++ ". " ++ pyStr p) ::
        passo_blocks (start + 1) ps

/-- The blocks of the `fluxos` loop (lines 95–99). -/
def fluxo_blocks : List PyVal → Except String (List Element)
  | [] => .ok []
  | fluxo :: rest => do
      let nome ← getItem fluxo "nome"
      let passos ← getItem fluxo "passos"
      let passoItems ← pyIterate passos
      let es ← fluxo_blocks rest
      .ok (Element.para "Normal" ("Fluxo: " ++ pyStr nome) ::
          (passo_blocks 1 passoItems ++ Element.spacer 1 12 :: es))

/-- `_add_fluxo_section` (lines 73–99): header, the component loop over
`.get('componentes', [])`, then — only when the key `'fluxos'` is
present — the `"Fluxos:"` heading and the flow loop. -/
def add_fluxo_section (fluxo_json : PyVal) : Except String (List Element) := do
  let comps ← dictGet fluxo_json "componentes" (PyVal.list [])
  let compItems ← pyIterate comps
  let compBlocks ← componente_blocks compItems
  let hasFluxos ← pyInOp "fluxos" fluxo_json
  let fluxoPart ←
    if hasFluxos then do
      let fl ← getItem fluxo_json "fluxos"
      let flItems ← pyIterate fl
      let flBlocks ← fluxo_blocks flItems
      pure (Element.para "Heading3" "Fluxos:" :: flBlocks)
    else pure []
  .ok (Element.para "Heading2" "2. Fluxo de Componentes" ::
      Element.spacer 1 12 :: (compBlocks ++ fluxoPart))

/-- The block of one API entry (lines 107–120): route/method/description
paragraphs, the parameter bullets behind the truthiness test
`if api['parametros']:`, then the response bullets. -/
def api_block (api : PyVal) : Except String (List Element) := do
  let rota ← getItem api "rota"
  let metodo ← getItem api "metodo"
  let descricao ← getItem api "descricao"
  let parametros ← getItem api "parametros"
  let paramPart ←
    if pyTruthy parametros then do
      let ps ← pyItems parametros
      pure (Element.para "Normal" "Parâmetros:" ::
        ps.map fun kv =>
          Element.para "Normal" ("• " ++ kv.1 ++ ": " ++ pyStr kv.2))
    else pure []
  let respostas ← getItem api "respostas"
  let rs ← pyItems respostas
  .ok (Element.para "Heading3" ("Rota: " ++ pyStr rota) ::
      Element.para "Normal" ("Método: " ++ pyStr metodo) ::
      Element.para "Normal" ("Descrição: " ++ pyStr descricao) ::
      (paramPart ++
        Element.para "Normal" "Respostas:" ::
        ((rs.map fun kv =>
            Element.para "Normal" ("• " ++ kv.1 ++ ": " ++ pyStr kv.2)) ++
          [Element.spacer 1 12])))

/-- The blocks of the `apis` loop. -/
def api_blocks : List PyVal → Except String (List Element)
  | [] => .ok []
  | api :: rest => do
      let b ← api_block api
      let es ← api_blocks rest
      .ok (b ++ es)

/-- `_add_apis_section` (lines 101–120). -/
def add_apis_section (apis_json : PyVal) : Except String (List Element) := do
  let apis ← dictGet apis_json "apis" (PyVal.list [])
  let apiItems ← pyIterate apis
  let blocks ← api_blocks apiItems
  .ok (Element.para "Heading2" "3. Mapa de APIs" ::
      Element.spacer 1 12 :: blocks)

/-- `create_pdf` (lines 15–52): the title block, then the three sections
in order; `doc.build` consumes the elements into the byte stream, so the
element list is the rendered document. -/
def create_pdf (requisitos_json fluxo_json apis_json : PyVal) :
    Except String (List Element) := do
  let r ← add_requisitos_section requisitos_json
  let f ← add_fluxo_section fluxo_json
  let a ← add_apis_section apis_json
  .ok (Element.para "Heading1" "Documentação Técnica" ::
      Element.spacer 1 30 :: (r ++ f ++ a))

/-- `gerar_pdf` (lines 123–136): the module-level helper the app calls. -/
def gerar_pdf (requisitos fluxo apis : PyVal) : Except String (List Element) :=
  create_pdf requisitos fluxo apis

/-- `generate_documentation` (lines 117–198): the guard on the API key,
then the three chain invocations in sequence, each response passed
through `ensure_json_response` and serialized with `json.dumps` as the
next stage's input; any exception from an invocation is caught by the
inner `try` and stops the run with the stage-error messages.  After the
three stages, the PDF build sits in its own `try` (lines 169–180): a
raising `gerar_pdf` shows `st.error("Erro ao gerar PDF: ...")` but does
not abort — the combined JSON download (lines 183–194) is offered
either way. -/
def generate_documentation (description api_key : String)
    (llm : Nat → String → Except String String) : RunOutput :=
  if api_key = "" then
    { invoked := [], results := [], downloadJson := Option.none,
      messages := ["Por favor, insira sua API key!"] }
  else
    match llm 1 description with
    | .error e =>
        { invoked := [(1, description)], results := [],
          downloadJson := Option.none, messages := stage_error_messages e }
    | .ok requisitos_response =>
        let requisitos_json := ensure_json_response requisitos_response
        let fluxo_input := json_dumps requisitos_json
        match llm 2 fluxo_input with
        | .error e =>
            { invoked := [(1, description), (2, fluxo_input)],
              results := [requisitos_json],
              downloadJson := Option.none, messages := stage_error_messages e }
        | .ok fluxo_response =>
            let fluxo_json := ensure_json_response fluxo_response
            let apis_input := json_dumps fluxo_json
            match llm 3 apis_input with
            | .error e =>
                { invoked := [(1, description), (2, fluxo_input), (3, apis_input)],
                  results := [requisitos_json, fluxo_json],
                  downloadJson := Option.none,
                  messages := stage_error_messages e }
            | .ok apis_response =>
                let apis_json := ensure_json_response apis_response
                { invoked := [(1, description), (2, fluxo_input), (3, apis_input)],
                  results := [requisitos_json, fluxo_json, apis_json],
                  downloadJson :=
                    some (combined_json_download requisitos_json fluxo_json apis_json),
                  messages :=
                    match gerar_pdf requisitos_json fluxo_json apis_json with
                    | .ok _ => []
                    | .error pdf_error => ["Erro ao gerar PDF: " ++ pdf_error] }

/-- The generate-button handler (lines 211–215): a nonempty description
reaches `generate_documentation`, an empty one only shows the warning. -/
def run_app (system_description openai_api_key : String)
    (llm : Nat → String → Except String String) : RunOutput :=
  if system_description ≠ "" then
    generate_documentation system_description openai_api_key llm
  else
    { invoked := [], results := [], downloadJson := Option.none,
      messages := ["Por favor, insira uma descrição do sistema!"] }

/-! ## Claims about the recovery function and the pipeline -/

/-- A model stub whose stage-1 response is prose without any brace, and
whose later stages return the empty JSON object `\x7b\x7d`. -/
def unparseable_stage1_llm : Nat → String → Except String String :=
  fun stage _ => if stage = 1 then .ok "I cannot comply." else .ok "\x7b\x7d"

/-- C1.  The claim says that whenever neither the direct parse nor the
first-`\x7b`-to-last-`\x7d` slice parse succeeds, `ensure_json_response`
returns the error-marker object and never raises.  On the text
`"I cannot comply."` both braces are absent, so both parses fail — yet
the function returns Python `None` (it falls off the end of its body,
against its own docstring, which promises it "cria um objeto de erro"),
not the error-marker object. -/
theorem c1_marker_claim_fails_without_braces :
    json_loads "I cannot comply." = Option.none ∧
    str_find "I cannot comply." '{' = -1 ∧
    str_rfind "I cannot comply." '}' = -1 ∧
    brace_slice_loads "I cannot comply." = Option.none ∧
    ensure_json_response "I cannot comply." = PyVal.none ∧
    PyVal.none ≠ error_marker "I cannot comply." :=
  ⟨rfl, rfl, rfl, rfl, rfl, by decide⟩

/-- C2.  The claim says every stage's recovered value is either a parsed
JSON object or the error-marker object.  Running the pipeline with
`unparseable_stage1_llm`, stage 1's `StageResult` is `PyVal.none`
(Python `None`), which is not the parse of the raw text under either
recovery tier and is not the error-marker object — the tagged-union
invariant fails on a brace-free response. -/
theorem c2_stage_result_union_violated :
    (generate_documentation "um sistema de e-commerce" "sk-test"
        unparseable_stage1_llm).results =
      [PyVal.none, PyVal.dict [], PyVal.dict []] ∧
    ¬ (json_loads "I cannot comply." = some PyVal.none ∨
       brace_slice_loads "I cannot comply." = some PyVal.none ∨
       PyVal.none = error_marker "I cannot comply.") :=
  ⟨rfl, by decide⟩

/-- C4.  The first two recovery tiers, as claimed: a raw text that parses
directly is returned parsed, and otherwise a successful parse of the
first-`\x7b`-to-last-`\x7d` slice is returned. -/
theorem c4_recovery_tiers (T : String) (v : PyVal) :
    (json_loads T = some v → ensure_json_response T = v) ∧
    (json_loads T = Option.none → brace_slice_loads T = some v →
      ensure_json_response T = v) := by
  constructor
  · intro h
    simp [ensure_json_response, h]
  · intro h1 h2
    rw [brace_slice_loads] at h2
    simp only [ensure_json_response, h1]
    by_cases hc : str_find T '{' ≠ -1 ∧ str_rfind T '}' + 1 ≠ 0
    · simp only [if_pos hc] at h2 ⊢
      simp [h2]
    · simp only [if_neg hc] at h2
      exact absurd h2 (by simp)

/-- Witness for C4 at the spec's own end-to-end inputs: a pure-JSON
response, and scenario 2's prose-wrapped response. -/
theorem c4_recovery_tiers_witness :
    ensure_json_response "\x7b\"requisitos_funcionais\": []\x7d" =
      PyVal.dict [("requisitos_funcionais", PyVal.list [])] ∧
    json_loads
        "Here is the JSON: \x7b\"requisitos_funcionais\":[],\"requisitos_nao_funcionais\":[]\x7d Thanks!" =
      Option.none ∧
    ensure_json_response
        "Here is the JSON: \x7b\"requisitos_funcionais\":[],\"requisitos_nao_funcionais\":[]\x7d Thanks!" =
      PyVal.dict
        [("requisitos_funcionais", PyVal.list []),
         ("requisitos_nao_funcionais", PyVal.list [])] :=
  ⟨(c4_recovery_tiers _ _).1 rfl, rfl,
    (c4_recovery_tiers _ _).2 rfl rfl⟩

/-- C5.  The claim says a failed recovery serializes the error-marker
`StageResult` and feeds it to the next stage.  With
`unparseable_stage1_llm`, the pipeline indeed does not halt — all three
stages run and produce results — but what stage 2 receives is `"null"`,
the serialization of the fallen-through Python `None`, not the
serialized error-marker object. -/
theorem c5_null_not_marker_fed_forward :
    (generate_documentation "um sistema de e-commerce" "sk-test"
        unparseable_stage1_llm).invoked =
      [(1, "um sistema de e-commerce"), (2, "null"), (3, "\x7b\x7d")] ∧
    (generate_documentation "um sistema de e-commerce" "sk-test"
        unparseable_stage1_llm).results.length = 3 ∧
    json_dumps (error_marker "I cannot comply.") ≠ "null" :=
  ⟨rfl, rfl, by decide⟩

/-- C8.  A raised model invocation, at any of the three stages, is caught
by the per-run `except`: the run stops at that stage (nothing further is
invoked), no combined export is produced, and the stage-error messages
are shown.  A response that is merely unparseable is, by contrast, never
an exception: whenever all three invocations return text — any text —
all three stages run and the export exists; the only message such a run
can show is the `"Erro ao gerar PDF: ..."` of the PDF build's own
`try`/`except`, which does not abort the run. -/
theorem c8_invocation_error_aborts_run (d k : String)
    (llm : Nat → String → Except String String) (e : String) (hk : k ≠ "") :
    (llm 1 d = .error e →
        generate_documentation d k llm =
          { invoked := [(1, d)], results := [],
            downloadJson := Option.none,
            messages := stage_error_messages e }) ∧
    (∀ r1, llm 1 d = .ok r1 →
        llm 2 (json_dumps (ensure_json_response r1)) = .error e →
        generate_documentation d k llm =
          { invoked := [(1, d), (2, json_dumps (ensure_json_response r1))],
            results := [ensure_json_response r1],
            downloadJson := Option.none,
            messages := stage_error_messages e }) ∧
    (∀ r1 r2, llm 1 d = .ok r1 →
        llm 2 (json_dumps (ensure_json_response r1)) = .ok r2 →
        llm 3 (json_dumps (ensure_json_response r2)) = .error e →
        generate_documentation d k llm =
          { invoked := [(1, d), (2, json_dumps (ensure_json_response r1)),
              (3, json_dumps (ensure_json_response r2))],
            results := [ensure_json_response r1, ensure_json_response r2],
            downloadJson := Option.none,
            messages := stage_error_messages e }) ∧
    (∀ r1 r2 r3, llm 1 d = .ok r1 →
        llm 2 (json_dumps (ensure_json_response r1)) = .ok r2 →
        llm 3 (json_dumps (ensure_json_response r2)) = .ok r3 →
        (generate_documentation d k llm).invoked.length = 3 ∧
        (generate_documentation d k llm).downloadJson =
          some (combined_json_download (ensure_json_response r1)
            (ensure_json_response r2) (ensure_json_response r3)) ∧
        (generate_documentation d k llm).messages =
          (match gerar_pdf (ensure_json_response r1) (ensure_json_response r2)
              (ensure_json_response r3) with
            | .ok _ => []
            | .error pdf_error => ["Erro ao gerar PDF: " ++ pdf_error])) := by
  refine ⟨fun h1 => ?_, fun r1 h1 h2 => ?_, fun r1 r2 h1 h2 h3 => ?_,
    fun r1 r2 r3 h1 h2 h3 => ?_⟩ <;>
    simp [generate_documentation, hk, h1]
  · simp [h2]
  · simp [h2, h3]
  · simp [h2, h3]

/-- A model stub that raises at stage 2 and answers `\x7b\x7d` elsewhere. -/
def failing_stage2_llm : Nat → String → Except String String :=
  fun stage _ => if stage = 2 then .error "RateLimitError" else .ok "\x7b\x7d"

/-- Witness for C8: with `failing_stage2_llm`, the run stops after
stage 2, with no export and the user-visible messages; with
`unparseable_stage1_llm` the run completes, and the `None` payload makes
the PDF build raise, whose caught error is the run's one message. -/
theorem c8_invocation_error_aborts_run_witness :
    generate_documentation "descrição" "sk-test" failing_stage2_llm =
      { invoked := [(1, "descrição"), (2, "\x7b\x7d")],
        results := [PyVal.dict []],
        downloadJson := Option.none,
        messages := stage_error_messages "RateLimitError" } ∧
    (generate_documentation "um sistema de e-commerce" "sk-test"
        unparseable_stage1_llm).messages =
      ["Erro ao gerar PDF: AttributeError: no attribute get"] :=
  ⟨(c8_invocation_error_aborts_run "descrição" "sk-test" failing_stage2_llm
      "RateLimitError" (by decide)).2.1 "\x7b\x7d" rfl rfl,
   ((c8_invocation_error_aborts_run "um sistema de e-commerce" "sk-test"
        unparseable_stage1_llm "e" (by decide)).2.2.2 "I cannot comply."
        "\x7b\x7d" "\x7b\x7d" rfl rfl rfl).2.2.trans (by decide)⟩

/-- C9.  An empty description or an empty API key stops the run in the
configuration guards (`if system_description:` in the button handler,
`if not api_key:` at the top of `generate_documentation`): no model call
is made, no stage result or export exists, and a message is shown. -/
theorem c9_empty_config_no_network (d k : String)
    (llm : Nat → String → Except String String) (h : d = "" ∨ k = "") :
    (run_app d k llm).invoked = [] ∧
    (run_app d k llm).results = [] ∧
    (run_app d k llm).downloadJson = Option.none ∧
    (run_app d k llm).messages ≠ [] := by
  rcases h with rfl | rfl
  · simp [run_app]
  · by_cases hd : d = ""
    · simp [run_app, hd]
    · simp [run_app, hd, generate_documentation]

/-- Witness for C9, at both an empty description and an empty key. -/
theorem c9_empty_config_no_network_witness :
    (run_app "" "sk-test" unparseable_stage1_llm).invoked = [] ∧
    (run_app "descrição" "" unparseable_stage1_llm).invoked = [] ∧
    (run_app "descrição" "" unparseable_stage1_llm).downloadJson =
      Option.none :=
  ⟨(c9_empty_config_no_network "" "sk-test" unparseable_stage1_llm
      (Or.inl rfl)).1,
   (c9_empty_config_no_network "descrição" "" unparseable_stage1_llm
      (Or.inr rfl)).1,
   (c9_empty_config_no_network "descrição" "" unparseable_stage1_llm
      (Or.inr rfl)).2.2.1⟩


/-! ## Claims about the renderer's optional collections (C6) -/

/-- Prefixed text is never a shorter literal: length mismatch. -/
theorem append_ne_of_longer (p q s : String) (h : q.length < p.length) :
    p ++ s ≠ q := by
  intro he
  have hl := congrArg String.length he
  rw [String.length_append] at hl
  omega

/-- Prefixed text is never a literal with a different first character. -/
theorem append_ne_of_head (p q s : String) (c d : Char)
    (hc : p.data.head? = some c) (hd : q.data.head? = some d) (hne : c ≠ d) :
    p ++ s ≠ q := by
  intro he
  have h2 := congrArg String.data he
  rw [String.data_append] at h2
  cases hp : p.data with
  | nil => rw [hp] at hc; exact absurd hc (by simp)
  | cons x xs =>
      rw [hp] at hc h2
      cases hq : q.data with
      | nil => rw [hq] at hd; exact absurd hd (by simp)
      | cons y ys =>
          rw [hq] at hd h2
          simp only [List.head?_cons, Option.some.injEq] at hc hd
          simp only [List.cons_append, List.cons.injEq] at h2
          exact hne (hc ▸ hd ▸ h2.1)

/-- No element a component block emits is the `"Fluxos:"` heading: the
only `Heading3` paragraphs it produces start with `"Componente: "`. -/
theorem componente_blocks_no_fluxos_heading :
    ∀ (xs : List PyVal) (es : List Element),
      componente_blocks xs = .ok es →
      Element.para "Heading3" "Fluxos:" ∉ es := by
  intro xs
  induction xs with
  | nil =>
      intro es h
      simp only [componente_blocks] at h
      cases h
      simp
  | cons comp rest ih =>
      intro es h
      simp only [componente_blocks, bind, Except.bind] at h
      repeat' split at h
      all_goals try contradiction
      simp only [Except.ok.injEq] at h
      subst h
      intro hmem
      simp only [List.mem_cons, List.mem_append] at hmem
      rcases hmem with h | h | h | h | h | h | h | h
      · simp only [Element.para.injEq, true_and] at h
        exact append_ne_of_longer "Componente: " "Fluxos:" _ (by decide) h.symm
      · simp at h
      · simp at h
      · simp only [bullet_blocks, List.mem_map] at h
        obtain ⟨x, -, hx⟩ := h
        simp at hx
      · simp at h
      · simp only [bullet_blocks, List.mem_map] at h
        obtain ⟨x, -, hx⟩ := h
        simp at hx
      · simp at h
      · exact ih _ (by assumption) h

/-- `assocFind` misses a key exactly when no pair carries it. -/
theorem assocFind_none_iff (kvs : List (String × PyVal)) (k : String) :
    assocFind kvs k = Option.none ↔ (kvs.any fun kv => kv.1 = k) = false := by
  induction kvs with
  | nil => simp [assocFind]
  | cons kv rest ih =>
      obtain ⟨k2, v⟩ := kv
      by_cases hk : k2 = k <;> simp [assocFind, hk, ih]

/-- An API entry whose `parametros` value is the empty mapping renders
without the `"Parâmetros:"` label: the truthiness guard is false, and no
other paragraph of the block carries that text. -/
theorem api_block_no_parametros_label (api : PyVal) (es : List Element)
    (hp : getItem api "parametros" = .ok (PyVal.dict []))
    (h : api_block api = .ok es) :
    Element.para "Normal" "Parâmetros:" ∉ es := by
  simp only [api_block, bind, Except.bind, hp, pyTruthy, pure, Except.pure] at h
  repeat' split at h
  all_goals try contradiction
  simp only [Except.ok.injEq] at h
  subst h
  intro hmem
  simp only [List.mem_cons, List.mem_append, List.nil_append,
    List.mem_map] at hmem
  rcases hmem with h | h | h | h | h | h | h
  · simp at h
  · simp only [Element.para.injEq, true_and] at h
    exact append_ne_of_head "Método: " "Parâmetros:" _ 'M' 'P' rfl rfl
      (by decide) h.symm
  · simp only [Element.para.injEq, true_and] at h
    exact append_ne_of_head "Descrição: " "Parâmetros:" _ 'D' 'P' rfl rfl
      (by decide) h.symm
  · simp at h
  · obtain ⟨a, -, ha⟩ := h
    simp only [Element.para.injEq, true_and] at ha
    refine append_ne_of_head ("• " ++ a.1 ++ ": ") "Parâmetros:" _ '•' 'P'
      ?_ rfl (by decide) ha
    simp [String.data_append, show ("• " : String).data = ['•', ' '] from rfl]
  · simp at h
  · simp at h

/-- A flow document without the key `'fluxos'` renders without the
`"Fluxos:"` heading: the presence test is false and the component loop
never emits that heading. -/
theorem add_fluxo_section_no_label (kvs : List (String × PyVal))
    (es : List Element) (hf : assocFind kvs "fluxos" = Option.none)
    (h : add_fluxo_section (PyVal.dict kvs) = .ok es) :
    Element.para "Heading3" "Fluxos:" ∉ es := by
  have hany : (kvs.any fun kv => kv.1 = "fluxos") = false :=
    (assocFind_none_iff kvs "fluxos").mp hf
  simp only [add_fluxo_section, bind, Except.bind, dictGet, pyInOp, hany,
    pure, Except.pure, Bool.false_eq_true, if_false] at h
  repeat' split at h
  all_goals try contradiction
  simp only [Except.ok.injEq] at h
  subst h
  intro hmem
  simp only [List.mem_cons, List.mem_append, List.append_nil] at hmem
  rcases hmem with h | h | h
  · simp at h
  · simp at h
  · exact componente_blocks_no_fluxos_heading _ _ (by assumption) h

/-- C6, amended.  The renderer omits the `"Fluxos:"` heading exactly when
the key `'fluxos'` is **absent** (a presence test, not an emptiness
test), and omits the `"Parâmetros:"` label when an API entry's parameter
mapping is empty (a truthiness test).  The original claim's
empty-`flows` half fails: see the counterexample. -/
theorem c6_optional_labels_presence_and_truthiness :
    (∀ (kvs : List (String × PyVal)) (es : List Element),
        assocFind kvs "fluxos" = Option.none →
        add_fluxo_section (PyVal.dict kvs) = .ok es →
        Element.para "Heading3" "Fluxos:" ∉ es) ∧
    (∀ (api : PyVal) (es : List Element),
        getItem api "parametros" = .ok (PyVal.dict []) →
        api_block api = .ok es →
        Element.para "Normal" "Parâmetros:" ∉ es) :=
  ⟨add_fluxo_section_no_label, api_block_no_parametros_label⟩

/-- C6, counterexample to the claim as stated: a flow document whose
`fluxos` collection is present but **empty** still renders the bare
`"Fluxos:"` heading — the code tests `'fluxos' in fluxo_json`, which is
true for an empty list, so an empty header is emitted. -/
theorem c6_empty_flows_emit_label :
    add_fluxo_section
        (PyVal.dict [("componentes", PyVal.list []), ("fluxos", PyVal.list [])]) =
      .ok [Element.para "Heading2" "2. Fluxo de Componentes",
        Element.spacer 1 12, Element.para "Heading3" "Fluxos:"] ∧
    Element.para "Heading3" "Fluxos:" ∈
      [Element.para "Heading2" "2. Fluxo de Componentes",
        Element.spacer 1 12, Element.para "Heading3" "Fluxos:"] :=
  ⟨rfl, by decide⟩

/-- Witness for C6 at a flow document without the `fluxos` key and an
API entry with an empty parameter mapping. -/
theorem c6_optional_labels_presence_and_truthiness_witness :
    Element.para "Heading3" "Fluxos:" ∉
      [Element.para "Heading2" "2. Fluxo de Componentes",
        Element.spacer 1 12] ∧
    Element.para "Normal" "Parâmetros:" ∉
      [Element.para "Heading3" "Rota: /produtos",
        Element.para "Normal" "Método: GET",
        Element.para "Normal" "Descrição: lista produtos",
        Element.para "Normal" "Respostas:",
        Element.para "Normal" "• 200: ok",
        Element.spacer 1 12] :=
  ⟨c6_optional_labels_presence_and_truthiness.1
      [("componentes", PyVal.list [])] _ rfl rfl,
   c6_optional_labels_presence_and_truthiness.2
      (PyVal.dict [("rota", PyVal.str "/produtos"),
        ("metodo", PyVal.str "GET"),
        ("descricao", PyVal.str "lista produtos"),
        ("parametros", PyVal.dict []),
        ("respostas", PyVal.dict [("200", PyVal.str "ok")])]) _ rfl rfl⟩

/-! ## Renderer preconditions on item fields (C10) -/

/-- A functional-requirement loop that completed read all three fixed
fields of every item. -/
theorem req_func_blocks_ok_fields :
    ∀ (items : List PyVal) (es : List Element),
      req_func_blocks items = .ok es →
      ∀ req ∈ items,
        (∃ v, getItem req "id" = .ok v) ∧
        (∃ v, getItem req "descricao" = .ok v) ∧
        (∃ v, getItem req "prioridade" = .ok v) := by
  intro items
  induction items with
  | nil => intro es h req hreq; simp at hreq
  | cons x rest ih =>
      intro es h req hreq
      simp only [req_func_blocks, bind, Except.bind] at h
      repeat' split at h
      all_goals try contradiction
      rcases List.mem_cons.mp hreq with rfl | hmem
      · exact ⟨⟨_, by assumption⟩, ⟨_, by assumption⟩, ⟨_, by assumption⟩⟩
      · exact ih _ (by assumption) req hmem

/-- A non-functional-requirement loop that completed read all three
fixed fields of every item. -/
theorem req_nao_func_blocks_ok_fields :
    ∀ (items : List PyVal) (es : List Element),
      req_nao_func_blocks items = .ok es →
      ∀ req ∈ items,
        (∃ v, getItem req "id" = .ok v) ∧
        (∃ v, getItem req "descricao" = .ok v) ∧
        (∃ v, getItem req "tipo" = .ok v) := by
  intro items
  induction items with
  | nil => intro es h req hreq; simp at hreq
  | cons x rest ih =>
      intro es h req hreq
      simp only [req_nao_func_blocks, bind, Except.bind] at h
      repeat' split at h
      all_goals try contradiction
      rcases List.mem_cons.mp hreq with rfl | hmem
      · exact ⟨⟨_, by assumption⟩, ⟨_, by assumption⟩, ⟨_, by assumption⟩⟩
      · exact ih _ (by assumption) req hmem

/-- A component loop that completed read all four fixed fields of every
item. -/
theorem componente_blocks_ok_fields :
    ∀ (items : List PyVal) (es : List Element),
      componente_blocks items = .ok es →
      ∀ comp ∈ items,
        (∃ v, getItem comp "nome" = .ok v) ∧
        (∃ v, getItem comp "descricao" = .ok v) ∧
        (∃ v, getItem comp "responsabilidades" = .ok v) ∧
        (∃ v, getItem comp "dependencias" = .ok v) := by
  intro items
  induction items with
  | nil => intro es h comp hcomp; simp at hcomp
  | cons x rest ih =>
      intro es h comp hcomp
      simp only [componente_blocks, bind, Except.bind] at h
      repeat' split at h
      all_goals try contradiction
      rcases List.mem_cons.mp hcomp with rfl | hmem
      · exact ⟨⟨_, by assumption⟩, ⟨_, by assumption⟩, ⟨_, by assumption⟩,
          ⟨_, by assumption⟩⟩
      · exact ih _ (by assumption) comp hmem

/-- An API block that completed read all five fixed fields of its entry. -/
theorem api_block_ok_fields (api : PyVal) (es : List Element)
    (h : api_block api = .ok es) :
    (∃ v, getItem api "rota" = .ok v) ∧
    (∃ v, getItem api "metodo" = .ok v) ∧
    (∃ v, getItem api "descricao" = .ok v) ∧
    (∃ v, getItem api "parametros" = .ok v) ∧
    (∃ v, getItem api "respostas" = .ok v) := by
  simp only [api_block, bind, Except.bind] at h
  repeat' split at h
  all_goals try contradiction
  all_goals
    exact ⟨⟨_, by assumption⟩, ⟨_, by assumption⟩, ⟨_, by assumption⟩,
      ⟨_, by assumption⟩, ⟨_, by assumption⟩⟩

/-- An API loop that completed read all five fixed fields of every
entry. -/
theorem api_blocks_ok_fields :
    ∀ (items : List PyVal) (es : List Element),
      api_blocks items = .ok es →
      ∀ api ∈ items,
        (∃ v, getItem api "rota" = .ok v) ∧
        (∃ v, getItem api "metodo" = .ok v) ∧
        (∃ v, getItem api "descricao" = .ok v) ∧
        (∃ v, getItem api "parametros" = .ok v) ∧
        (∃ v, getItem api "respostas" = .ok v) := by
  intro items
  induction items with
  | nil => intro es h api hapi; simp at hapi
  | cons x rest ih =>
      intro es h api hapi
      simp only [api_blocks, bind, Except.bind] at h
      repeat' split at h
      all_goals try contradiction
      rcases List.mem_cons.mp hapi with rfl | hmem
      · exact api_block_ok_fields api _ (by assumption)
      · exact ih _ (by assumption) api hmem

/-- A completed requisitos section ran its functional loop to completion. -/
theorem requisitos_section_ok_func (kvs : List (String × PyVal))
    (es : List Element) (items : List PyVal)
    (hfind : assocFind kvs "requisitos_funcionais" = some (PyVal.list items))
    (h : add_requisitos_section (PyVal.dict kvs) = .ok es) :
    ∃ bs, req_func_blocks items = .ok bs := by
  simp only [add_requisitos_section, bind, Except.bind, dictGet, hfind,
    Option.getD_some, pyIterate] at h
  repeat' split at h
  all_goals try contradiction
  exact ⟨_, by assumption⟩

/-- A completed requisitos section ran its non-functional loop to
completion. -/
theorem requisitos_section_ok_nao (kvs : List (String × PyVal))
    (es : List Element) (items : List PyVal)
    (hfind : assocFind kvs "requisitos_nao_funcionais" = some (PyVal.list items))
    (h : add_requisitos_section (PyVal.dict kvs) = .ok es) :
    ∃ bs, req_nao_func_blocks items = .ok bs := by
  simp only [add_requisitos_section, bind, Except.bind, dictGet, hfind,
    Option.getD_some, pyIterate] at h
  repeat' split at h
  all_goals try contradiction
  exact ⟨_, by assumption⟩

/-- A completed fluxo section ran its component loop to completion. -/
theorem fluxo_section_ok_comp (kvs : List (String × PyVal))
    (es : List Element) (items : List PyVal)
    (hfind : assocFind kvs "componentes" = some (PyVal.list items))
    (h : add_fluxo_section (PyVal.dict kvs) = .ok es) :
    ∃ bs, componente_blocks items = .ok bs := by
  simp only [add_fluxo_section, bind, Except.bind, dictGet, hfind,
    Option.getD_some, pyIterate] at h
  repeat' split at h
  all_goals try contradiction
  all_goals exact ⟨_, by assumption⟩

/-- A completed APIs section ran its API loop to completion. -/
theorem apis_section_ok_blocks (kvs : List (String × PyVal))
    (es : List Element) (items : List PyVal)
    (hfind : assocFind kvs "apis" = some (PyVal.list items))
    (h : add_apis_section (PyVal.dict kvs) = .ok es) :
    ∃ bs, api_blocks items = .ok bs := by
  simp only [add_apis_section, bind, Except.bind, dictGet, hfind,
    Option.getD_some, pyIterate] at h
  repeat' split at h
  all_goals try contradiction
  exact ⟨_, by assumption⟩

/-- C10.  Only the four top-level collection keys default to empty when
absent (an all-absent bundle renders exactly like an explicitly-empty
one), while every item inside a collection must carry all of its fixed
fields: a functional requirement `id`/`descricao`/`prioridade`, a
non-functional requirement `id`/`descricao`/`tipo`, a component
`nome`/`descricao`/`responsabilidades`/`dependencias`, an API entry
`rota`/`metodo`/`descricao`/`parametros`/`respostas` — any item on which
one of these lookups fails makes its section (and hence `gerar_pdf`,
by the propagation conjunct) raise. -/
theorem c10_item_fields :
    (∀ (kvs1 kvs2 kvs3 : List (String × PyVal)),
        assocFind kvs1 "requisitos_funcionais" = Option.none →
        assocFind kvs1 "requisitos_nao_funcionais" = Option.none →
        assocFind kvs2 "componentes" = Option.none →
        assocFind kvs2 "fluxos" = Option.none →
        assocFind kvs3 "apis" = Option.none →
        gerar_pdf (PyVal.dict kvs1) (PyVal.dict kvs2) (PyVal.dict kvs3) =
          gerar_pdf
            (PyVal.dict [("requisitos_funcionais", PyVal.list []),
              ("requisitos_nao_funcionais", PyVal.list [])])
            (PyVal.dict [("componentes", PyVal.list [])])
            (PyVal.dict [("apis", PyVal.list [])])) ∧
    (∀ (kvs : List (String × PyVal)) (items : List PyVal) (req : PyVal)
        (f : String),
        assocFind kvs "requisitos_funcionais" = some (PyVal.list items) →
        req ∈ items → f ∈ ["id", "descricao", "prioridade"] →
        (∀ v, getItem req f ≠ .ok v) →
        ∃ e, add_requisitos_section (PyVal.dict kvs) = .error e) ∧
    (∀ (kvs : List (String × PyVal)) (items : List PyVal) (req : PyVal)
        (f : String),
        assocFind kvs "requisitos_nao_funcionais" = some (PyVal.list items) →
        req ∈ items → f ∈ ["id", "descricao", "tipo"] →
        (∀ v, getItem req f ≠ .ok v) →
        ∃ e, add_requisitos_section (PyVal.dict kvs) = .error e) ∧
    (∀ (kvs : List (String × PyVal)) (items : List PyVal) (comp : PyVal)
        (f : String),
        assocFind kvs "componentes" = some (PyVal.list items) →
        comp ∈ items →
        f ∈ ["nome", "descricao", "responsabilidades", "dependencias"] →
        (∀ v, getItem comp f ≠ .ok v) →
        ∃ e, add_fluxo_section (PyVal.dict kvs) = .error e) ∧
    (∀ (kvs : List (String × PyVal)) (items : List PyVal) (api : PyVal)
        (f : String),
        assocFind kvs "apis" = some (PyVal.list items) →
        api ∈ items →
        f ∈ ["rota", "metodo", "descricao", "parametros", "respostas"] →
        (∀ v, getItem api f ≠ .ok v) →
        ∃ e, add_apis_section (PyVal.dict kvs) = .error e) ∧
    (∀ (rj fj aj : PyVal),
        ((∃ e, add_requisitos_section rj = .error e) ∨
          (∃ e, add_fluxo_section fj = .error e) ∨
          (∃ e, add_apis_section aj = .error e)) →
        ∃ e, gerar_pdf rj fj aj = .error e) := by
  refine ⟨?_, ?_, ?_, ?_, ?_, ?_⟩
  · intro kvs1 kvs2 kvs3 h1 h2 h3 h4 h5
    have hany : (kvs2.any fun kv => kv.1 = "fluxos") = false :=
      (assocFind_none_iff kvs2 "fluxos").mp h4
    simp only [gerar_pdf, create_pdf, add_requisitos_section,
      add_fluxo_section, add_apis_section, bind, Except.bind, dictGet,
      h1, h2, h3, h5, hany, Option.getD_none, pyIterate, pyInOp,
      req_func_blocks, req_nao_func_blocks, componente_blocks, api_blocks,
      pure, Except.pure, assocFind, Bool.false_eq_true, if_false]
    rfl
  · intro kvs items req f hfind hreq hf hmiss
    cases hs : add_requisitos_section (PyVal.dict kvs) with
    | error e => exact ⟨e, rfl⟩
    | ok es =>
        obtain ⟨bs, hbs⟩ := requisitos_section_ok_func kvs es items hfind hs
        have trip := req_func_blocks_ok_fields items bs hbs req hreq
        simp only [List.mem_cons, List.not_mem_nil, or_false] at hf
        rcases hf with rfl | rfl | rfl
        · obtain ⟨v, hv⟩ := trip.1
          exact absurd hv (hmiss v)
        · obtain ⟨v, hv⟩ := trip.2.1
          exact absurd hv (hmiss v)
        · obtain ⟨v, hv⟩ := trip.2.2
          exact absurd hv (hmiss v)
  · intro kvs items req f hfind hreq hf hmiss
    cases hs : add_requisitos_section (PyVal.dict kvs) with
    | error e => exact ⟨e, rfl⟩
    | ok es =>
        obtain ⟨bs, hbs⟩ := requisitos_section_ok_nao kvs es items hfind hs
        have trip := req_nao_func_blocks_ok_fields items bs hbs req hreq
        simp only [List.mem_cons, List.not_mem_nil, or_false] at hf
        rcases hf with rfl | rfl | rfl
        · obtain ⟨v, hv⟩ := trip.1
          exact absurd hv (hmiss v)
        · obtain ⟨v, hv⟩ := trip.2.1
          exact absurd hv (hmiss v)
        · obtain ⟨v, hv⟩ := trip.2.2
          exact absurd hv (hmiss v)
  · intro kvs items comp f hfind hcomp hf hmiss
    cases hs : add_fluxo_section (PyVal.dict kvs) with
    | error e => exact ⟨e, rfl⟩
    | ok es =>
        obtain ⟨bs, hbs⟩ := fluxo_section_ok_comp kvs es items hfind hs
        have quad := componente_blocks_ok_fields items bs hbs comp hcomp
        simp only [List.mem_cons, List.not_mem_nil, or_false] at hf
        rcases hf with rfl | rfl | rfl | rfl
        · obtain ⟨v, hv⟩ := quad.1
          exact absurd hv (hmiss v)
        · obtain ⟨v, hv⟩ := quad.2.1
          exact absurd hv (hmiss v)
        · obtain ⟨v, hv⟩ := quad.2.2.1
          exact absurd hv (hmiss v)
        · obtain ⟨v, hv⟩ := quad.2.2.2
          exact absurd hv (hmiss v)
  · intro kvs items api f hfind hapi hf hmiss
    cases hs : add_apis_section (PyVal.dict kvs) with
    | error e => exact ⟨e, rfl⟩
    | ok es =>
        obtain ⟨bs, hbs⟩ := apis_section_ok_blocks kvs es items hfind hs
        have quint := api_blocks_ok_fields items bs hbs api hapi
        simp only [List.mem_cons, List.not_mem_nil, or_false] at hf
        rcases hf with rfl | rfl | rfl | rfl | rfl
        · obtain ⟨v, hv⟩ := quint.1
          exact absurd hv (hmiss v)
        · obtain ⟨v, hv⟩ := quint.2.1
          exact absurd hv (hmiss v)
        · obtain ⟨v, hv⟩ := quint.2.2.1
          exact absurd hv (hmiss v)
        · obtain ⟨v, hv⟩ := quint.2.2.2.1
          exact absurd hv (hmiss v)
        · obtain ⟨v, hv⟩ := quint.2.2.2.2
          exact absurd hv (hmiss v)
  · intro rj fj aj h
    rcases h with ⟨e, he⟩ | ⟨e, he⟩ | ⟨e, he⟩
    · exact ⟨e, by simp [gerar_pdf, create_pdf, bind, Except.bind, he]⟩
    · cases hr : add_requisitos_section rj with
      | error e2 => exact ⟨e2, by simp [gerar_pdf, create_pdf, bind, Except.bind, hr]⟩
      | ok r => exact ⟨e, by simp [gerar_pdf, create_pdf, bind, Except.bind, hr, he]⟩
    · cases hr : add_requisitos_section rj with
      | error e2 => exact ⟨e2, by simp [gerar_pdf, create_pdf, bind, Except.bind, hr]⟩
      | ok r =>
          cases hfx : add_fluxo_section fj with
          | error e2 =>
              exact ⟨e2, by simp [gerar_pdf, create_pdf, bind, Except.bind, hr, hfx]⟩
          | ok fx =>
              exact ⟨e, by simp [gerar_pdf, create_pdf, bind, Except.bind, hr, hfx, he]⟩

/-- Witness for C10: a functional requirement without `prioridade`
makes the requisitos section raise, and the all-absent bundle renders
like the explicitly-empty one. -/
theorem c10_item_fields_witness :
    (∃ e, add_requisitos_section
        (PyVal.dict [("requisitos_funcionais",
          PyVal.list [PyVal.dict [("id", PyVal.str "RF01"),
            ("descricao", PyVal.str "Visualizar produtos")]])]) =
      .error e) ∧
    gerar_pdf (PyVal.dict []) (PyVal.dict []) (PyVal.dict []) =
      gerar_pdf
        (PyVal.dict [("requisitos_funcionais", PyVal.list []),
          ("requisitos_nao_funcionais", PyVal.list [])])
        (PyVal.dict [("componentes", PyVal.list [])])
        (PyVal.dict [("apis", PyVal.list [])]) :=
  ⟨c10_item_fields.2.1 _ _
      (PyVal.dict [("id", PyVal.str "RF01"),
        ("descricao", PyVal.str "Visualizar produtos")])
      "prioridade" rfl (by simp) (by simp)
      (fun v h => Except.noConfusion h),
   c10_item_fields.1 [] [] [] rfl rfl rfl rfl rfl⟩

/-! ## Renderer totality on well-formed and error-marker documents (C3)

The well-formedness predicates below spell out, per stage document, the
shape §3--§4 of the specification gives them, restricted to exactly what
the renderer touches: dictionaries whose optional collections, when
present, are lists of items carrying their fixed fields (with the
iterated/`items()`-ed fields being lists/dicts). -/

/-- The item lookup `v[k]` succeeds. -/
def hasOkKey (v : PyVal) (k : String) : Bool :=
  match getItem v k with
  | .ok _ => true
  | _ => false

/-- The value is a Python list. -/
def isListVal : PyVal → Bool
  | .list _ => true
  | _ => false

/-- The value is a Python dict. -/
def isDictVal : PyVal → Bool
  | .dict _ => true
  | _ => false

/-- A functional requirement carries its three fixed fields. -/
def wf_req_item (v : PyVal) : Bool :=
  hasOkKey v "id" && hasOkKey v "descricao" && hasOkKey v "prioridade"

/-- A non-functional requirement carries its three fixed fields. -/
def wf_rnf_item (v : PyVal) : Bool :=
  hasOkKey v "id" && hasOkKey v "descricao" && hasOkKey v "tipo"

/-- A component carries its four fixed fields, the iterated two lists. -/
def wf_comp_item (v : PyVal) : Bool :=
  hasOkKey v "nome" && hasOkKey v "descricao" &&
    (match getItem v "responsabilidades" with
     | .ok w => isListVal w
     | _ => false) &&
    (match getItem v "dependencias" with
     | .ok w => isListVal w
     | _ => false)

/-- A flow carries a name and a list of steps. -/
def wf_fluxo_item (v : PyVal) : Bool :=
  hasOkKey v "nome" &&
    (match getItem v "passos" with
     | .ok w => isListVal w
     | _ => false)

/-- An API entry carries its five fixed fields, the two mappings dicts. -/
def wf_api_item (v : PyVal) : Bool :=
  hasOkKey v "rota" && hasOkKey v "metodo" && hasOkKey v "descricao" &&
    (match getItem v "parametros" with
     | .ok w => isDictVal w
     | _ => false) &&
    (match getItem v "respostas" with
     | .ok w => isDictVal w
     | _ => false)

/-- An optional collection: absent, or a list of well-formed items. -/
def optionalList (kvs : List (String × PyVal)) (k : String)
    (p : PyVal → Bool) : Bool :=
  match assocFind kvs k with
  | Option.none => true
  | some (.list xs) => xs.all p
  | _ => false

/-- A requirements document the renderer accepts. -/
def wf_requisitos (v : PyVal) : Bool :=
  match v with
  | .dict kvs =>
      optionalList kvs "requisitos_funcionais" wf_req_item &&
        optionalList kvs "requisitos_nao_funcionais" wf_rnf_item
  | _ => false

/-- A flow document the renderer accepts. -/
def wf_fluxo (v : PyVal) : Bool :=
  match v with
  | .dict kvs =>
      optionalList kvs "componentes" wf_comp_item &&
        optionalList kvs "fluxos" wf_fluxo_item
  | _ => false

/-- An API-map document the renderer accepts. -/
def wf_apis (v : PyVal) : Bool :=
  match v with
  | .dict kvs => optionalList kvs "apis" wf_api_item
  | _ => false

/-- The value is the error-marker object of some raw text. -/
def is_error_marker (v : PyVal) : Bool :=
  match v with
  | .dict [("erro", PyVal.str m), ("resposta_original", PyVal.str _)] =>
      m = "Não foi possível gerar um JSON válido"
  | _ => false

/-- Unfold a successful `hasOkKey` test. -/
theorem hasOkKey_ok (v : PyVal) (k : String) (h : hasOkKey v k = true) :
    ∃ x, getItem v k = .ok x := by
  unfold hasOkKey at h
  split at h
  · exact ⟨_, by assumption⟩
  · exact absurd h (by simp)

/-- A positive key test produces a lookup value. -/
theorem assocFind_some_of_any (kvs : List (String × PyVal)) (k : String)
    (h : (kvs.any fun kv => kv.1 = k) = true) :
    ∃ v, assocFind kvs k = some v := by
  induction kvs with
  | nil => simp at h
  | cons kv rest ih =>
      obtain ⟨k2, v⟩ := kv
      by_cases hk : k2 = k
      · exact ⟨v, by simp [assocFind, hk]⟩
      · simp only [List.any_cons, Bool.or_eq_true, decide_eq_true_eq] at h
        rcases h with h | h
        · exact absurd h hk
        · obtain ⟨w, hw⟩ := ih h
          exact ⟨w, by simp [assocFind, hk, hw]⟩

/-- The functional-requirement loop completes on well-formed items. -/
theorem req_func_blocks_total (items : List PyVal)
    (h : items.all wf_req_item = true) :
    ∃ es, req_func_blocks items = .ok es := by
  induction items with
  | nil => exact ⟨[], rfl⟩
  | cons x rest ih =>
      simp only [List.all_cons, Bool.and_eq_true] at h
      obtain ⟨hx, hrest⟩ := h
      simp only [wf_req_item, Bool.and_eq_true] at hx
      obtain ⟨⟨h1, h2⟩, h3⟩ := hx
      obtain ⟨v1, hv1⟩ := hasOkKey_ok _ _ h1
      obtain ⟨v2, hv2⟩ := hasOkKey_ok _ _ h2
      obtain ⟨v3, hv3⟩ := hasOkKey_ok _ _ h3
      obtain ⟨es, hes⟩ := ih hrest
      cases hres : req_func_blocks (x :: rest) with
      | ok es2 => exact ⟨es2, rfl⟩
      | error e =>
          simp [req_func_blocks, bind, Except.bind, hv1, hv2, hv3, hes] at hres

/-- The non-functional-requirement loop completes on well-formed items. -/
theorem req_nao_func_blocks_total (items : List PyVal)
    (h : items.all wf_rnf_item = true) :
    ∃ es, req_nao_func_blocks items = .ok es := by
  induction items with
  | nil => exact ⟨[], rfl⟩
  | cons x rest ih =>
      simp only [List.all_cons, Bool.and_eq_true] at h
      obtain ⟨hx, hrest⟩ := h
      simp only [wf_rnf_item, Bool.and_eq_true] at hx
      obtain ⟨⟨h1, h2⟩, h3⟩ := hx
      obtain ⟨v1, hv1⟩ := hasOkKey_ok _ _ h1
      obtain ⟨v2, hv2⟩ := hasOkKey_ok _ _ h2
      obtain ⟨v3, hv3⟩ := hasOkKey_ok _ _ h3
      obtain ⟨es, hes⟩ := ih hrest
      cases hres : req_nao_func_blocks (x :: rest) with
      | ok es2 => exact ⟨es2, rfl⟩
      | error e =>
          simp [req_nao_func_blocks, bind, Except.bind, hv1, hv2, hv3, hes] at hres

/-- Unfold a successful list-valued field test. -/
theorem okList_of_match (v : PyVal) (k : String)
    (h : (match getItem v k with
          | .ok w => isListVal w
          | _ => false) = true) :
    ∃ xs, getItem v k = .ok (PyVal.list xs) := by
  split at h
  · rename_i w hw
    cases w <;> first
      | exact ⟨_, hw⟩
      | simp [isListVal] at h
  · exact absurd h (by simp)

/-- Unfold a successful dict-valued field test. -/
theorem okDict_of_match (v : PyVal) (k : String)
    (h : (match getItem v k with
          | .ok w => isDictVal w
          | _ => false) = true) :
    ∃ kvs, getItem v k = .ok (PyVal.dict kvs) := by
  split at h
  · rename_i w hw
    cases w <;> first
      | exact ⟨_, hw⟩
      | simp [isDictVal] at h
  · exact absurd h (by simp)

/-- The component loop completes on well-formed items. -/
theorem componente_blocks_total (items : List PyVal)
    (h : items.all wf_comp_item = true) :
    ∃ es, componente_blocks items = .ok es := by
  induction items with
  | nil => exact ⟨[], rfl⟩
  | cons x rest ih =>
      simp only [List.all_cons, Bool.and_eq_true] at h
      obtain ⟨hx, hrest⟩ := h
      simp only [wf_comp_item, Bool.and_eq_true] at hx
      obtain ⟨⟨⟨h1, h2⟩, h3⟩, h4⟩ := hx
      obtain ⟨v1, hv1⟩ := hasOkKey_ok _ _ h1
      obtain ⟨v2, hv2⟩ := hasOkKey_ok _ _ h2
      obtain ⟨xs3, hv3⟩ := okList_of_match _ _ h3
      obtain ⟨xs4, hv4⟩ := okList_of_match _ _ h4
      obtain ⟨es, hes⟩ := ih hrest
      cases hres : componente_blocks (x :: rest) with
      | ok es2 => exact ⟨es2, rfl⟩
      | error e =>
          simp [componente_blocks, bind, Except.bind, hv1, hv2, hv3, hv4,
            pyIterate, hes] at hres

/-- The flow loop completes on well-formed items. -/
theorem fluxo_blocks_total (items : List PyVal)
    (h : items.all wf_fluxo_item = true) :
    ∃ es, fluxo_blocks items = .ok es := by
  induction items with
  | nil => exact ⟨[], rfl⟩
  | cons x rest ih =>
      simp only [List.all_cons, Bool.and_eq_true] at h
      obtain ⟨hx, hrest⟩ := h
      simp only [wf_fluxo_item, Bool.and_eq_true] at hx
      obtain ⟨h1, h2⟩ := hx
      obtain ⟨v1, hv1⟩ := hasOkKey_ok _ _ h1
      obtain ⟨xs2, hv2⟩ := okList_of_match _ _ h2
      obtain ⟨es, hes⟩ := ih hrest
      cases hres : fluxo_blocks (x :: rest) with
      | ok es2 => exact ⟨es2, rfl⟩
      | error e =>
          simp [fluxo_blocks, bind, Except.bind, hv1, hv2, pyIterate,
            hes] at hres

/-- The API loop completes on well-formed items. -/
theorem api_blocks_total (items : List PyVal)
    (h : items.all wf_api_item = true) :
    ∃ es, api_blocks items = .ok es := by
  induction items with
  | nil => exact ⟨[], rfl⟩
  | cons x rest ih =>
      simp only [List.all_cons, Bool.and_eq_true] at h
      obtain ⟨hx, hrest⟩ := h
      simp only [wf_api_item, Bool.and_eq_true] at hx
      obtain ⟨⟨⟨⟨h1, h2⟩, h3⟩, h4⟩, h5⟩ := hx
      obtain ⟨v1, hv1⟩ := hasOkKey_ok _ _ h1
      obtain ⟨v2, hv2⟩ := hasOkKey_ok _ _ h2
      obtain ⟨v3, hv3⟩ := hasOkKey_ok _ _ h3
      obtain ⟨kvs4, hv4⟩ := okDict_of_match _ _ h4
      obtain ⟨kvs5, hv5⟩ := okDict_of_match _ _ h5
      obtain ⟨es, hes⟩ := ih hrest
      by_cases ht : pyTruthy (PyVal.dict kvs4) = true
      all_goals
        cases hres : api_blocks (x :: rest) with
        | ok es2 => exact ⟨es2, rfl⟩
        | error e =>
            simp [api_blocks, api_block, bind, Except.bind, hv1, hv2, hv3,
              hv4, hv5, pyItems, hes, ht, pure, Except.pure] at hres

/-- What the renderer iterates for an optional collection: the found
list, or the `.get` default. -/
theorem optionalList_iterate (kvs : List (String × PyVal)) (k : String)
    (p : PyVal → Bool) (h : optionalList kvs k p = true) :
    ∃ xs, (assocFind kvs k).getD (PyVal.list []) = PyVal.list xs ∧
      xs.all p = true := by
  unfold optionalList at h
  split at h
  · exact ⟨[], by rw [(by assumption : assocFind kvs k = Option.none)]; rfl, rfl⟩
  · rename_i xs hxs
    exact ⟨xs, by rw [hxs]; rfl, h⟩
  · exact absurd h (by simp)

/-- The requisitos section completes on a well-formed document. -/
theorem add_requisitos_section_total (kvs : List (String × PyVal))
    (h : wf_requisitos (PyVal.dict kvs) = true) :
    ∃ es, add_requisitos_section (PyVal.dict kvs) = .ok es := by
  simp only [wf_requisitos, Bool.and_eq_true] at h
  obtain ⟨hrf, hrnf⟩ := h
  obtain ⟨xs1, hx1, hall1⟩ := optionalList_iterate _ _ _ hrf
  obtain ⟨xs2, hx2, hall2⟩ := optionalList_iterate _ _ _ hrnf
  obtain ⟨bs1, hbs1⟩ := req_func_blocks_total xs1 hall1
  obtain ⟨bs2, hbs2⟩ := req_nao_func_blocks_total xs2 hall2
  cases hres : add_requisitos_section (PyVal.dict kvs) with
  | ok es => exact ⟨es, rfl⟩
  | error e =>
      simp [add_requisitos_section, bind, Except.bind, dictGet, hx1, hx2,
        pyIterate, hbs1, hbs2] at hres

/-- The fluxo section completes on a well-formed document. -/
theorem add_fluxo_section_total (kvs : List (String × PyVal))
    (h : wf_fluxo (PyVal.dict kvs) = true) :
    ∃ es, add_fluxo_section (PyVal.dict kvs) = .ok es := by
  simp only [wf_fluxo, Bool.and_eq_true] at h
  obtain ⟨hc, hfl⟩ := h
  obtain ⟨xs1, hx1, hall1⟩ := optionalList_iterate _ _ _ hc
  obtain ⟨bs1, hbs1⟩ := componente_blocks_total xs1 hall1
  cases hin : (kvs.any fun kv => kv.1 = "fluxos") with
  | false =>
      cases hres : add_fluxo_section (PyVal.dict kvs) with
      | ok es => exact ⟨es, rfl⟩
      | error e =>
          simp [add_fluxo_section, bind, Except.bind, dictGet, pyInOp, hin,
            hx1, pyIterate, hbs1, pure, Except.pure] at hres
  | true =>
      obtain ⟨v, hv⟩ := assocFind_some_of_any _ _ hin
      unfold optionalList at hfl
      rw [hv] at hfl
      cases v <;> simp only at hfl
      case list xs2 =>
        obtain ⟨bs2, hbs2⟩ := fluxo_blocks_total xs2 hfl
        cases hres : add_fluxo_section (PyVal.dict kvs) with
        | ok es => exact ⟨es, rfl⟩
        | error e =>
            simp [add_fluxo_section, bind, Except.bind, dictGet, pyInOp, hin,
              hx1, pyIterate, hbs1, getItem, hv, hbs2, pure,
              Except.pure] at hres
      all_goals exact absurd hfl (by simp)

/-- The APIs section completes on a well-formed document. -/
theorem add_apis_section_total (kvs : List (String × PyVal))
    (h : wf_apis (PyVal.dict kvs) = true) :
    ∃ es, add_apis_section (PyVal.dict kvs) = .ok es := by
  simp only [wf_apis] at h
  obtain ⟨xs1, hx1, hall1⟩ := optionalList_iterate _ _ _ h
  obtain ⟨bs1, hbs1⟩ := api_blocks_total xs1 hall1
  cases hres : add_apis_section (PyVal.dict kvs) with
  | ok es => exact ⟨es, rfl⟩
  | error e =>
      simp [add_apis_section, bind, Except.bind, dictGet, hx1, pyIterate,
        hbs1] at hres

/-- Well-formed documents are dictionaries. -/
theorem wf_dict_shape (v : PyVal) :
    (wf_requisitos v = true → ∃ kvs, v = PyVal.dict kvs) ∧
    (wf_fluxo v = true → ∃ kvs, v = PyVal.dict kvs) ∧
    (wf_apis v = true → ∃ kvs, v = PyVal.dict kvs) := by
  cases v <;> simp [wf_requisitos, wf_fluxo, wf_apis]

/-- `gerar_pdf` completes, nonempty, on a well-formed bundle. -/
theorem gerar_pdf_total (rj fj aj : PyVal)
    (h1 : wf_requisitos rj = true) (h2 : wf_fluxo fj = true)
    (h3 : wf_apis aj = true) :
    ∃ es, gerar_pdf rj fj aj = .ok es ∧ es ≠ [] := by
  obtain ⟨kvs1, rfl⟩ := (wf_dict_shape rj).1 h1
  obtain ⟨kvs2, rfl⟩ := (wf_dict_shape fj).2.1 h2
  obtain ⟨kvs3, rfl⟩ := (wf_dict_shape aj).2.2 h3
  obtain ⟨e1, he1⟩ := add_requisitos_section_total kvs1 h1
  obtain ⟨e2, he2⟩ := add_fluxo_section_total kvs2 h2
  obtain ⟨e3, he3⟩ := add_apis_section_total kvs3 h3
  refine ⟨Element.para "Heading1" "Documentação Técnica" ::
      Element.spacer 1 30 :: (e1 ++ e2 ++ e3), ?_, by simp⟩
  simp [gerar_pdf, create_pdf, bind, Except.bind, he1, he2, he3]

/-- The error-marker object is (vacuously) well-formed for all three
sections: it has none of the collection keys. -/
theorem wf_of_error_marker (v : PyVal) (h : is_error_marker v = true) :
    wf_requisitos v = true ∧ wf_fluxo v = true ∧ wf_apis v = true := by
  unfold is_error_marker at h
  split at h
  · exact ⟨rfl, rfl, rfl⟩
  · exact absurd h (by simp)

/-- C3, amended.  For every bundle whose documents are well-formed or
error-marker objects, `gerar_pdf` completes without raising and returns
a nonempty element list; and the render of an all-marker bundle is one
fixed document independent of the markers' contents — the marker's
fields are never printed (the claim's "degrades to printing the error
marker's fields literally" fails: see the counterexample). -/
theorem c3_render_total_marker_tolerated :
    (∀ rj fj aj : PyVal,
        (wf_requisitos rj = true ∨ is_error_marker rj = true) →
        (wf_fluxo fj = true ∨ is_error_marker fj = true) →
        (wf_apis aj = true ∨ is_error_marker aj = true) →
        ∃ es, gerar_pdf rj fj aj = .ok es ∧ es ≠ []) ∧
    (∀ t1 t2 t3 : String,
        gerar_pdf (error_marker t1) (error_marker t2) (error_marker t3) =
          gerar_pdf (error_marker "") (error_marker "") (error_marker "")) := by
  constructor
  · intro rj fj aj h1 h2 h3
    have w1 : wf_requisitos rj = true :=
      h1.elim id fun h => (wf_of_error_marker rj h).1
    have w2 : wf_fluxo fj = true :=
      h2.elim id fun h => (wf_of_error_marker fj h).2.1
    have w3 : wf_apis aj = true :=
      h3.elim id fun h => (wf_of_error_marker aj h).2.2
    exact gerar_pdf_total rj fj aj w1 w2 w3
  · intro t1 t2 t3
    rfl

/-- Witness for C3 at an all-marker bundle. -/
theorem c3_render_total_marker_tolerated_witness :
    ∃ es, gerar_pdf (error_marker "I cannot comply.")
        (error_marker "I cannot comply.") (error_marker "I cannot comply.") =
      .ok es ∧ es ≠ [] :=
  c3_render_total_marker_tolerated.1 _ _ _ (Or.inr rfl) (Or.inr rfl)
    (Or.inr rfl)

/-- The needle occurs in the element's paragraph text. -/
def textMentions (needle : String) : Element → Bool
  | .para _ t => t.data.tails.any fun tl => needle.data.isPrefixOf tl
  | .spacer _ _ => false

/-- The fixed render of an all-marker bundle: section headers only. -/
def marker_bundle_render : List Element :=
  [Element.para "Heading1" "Documentação Técnica",
   Element.spacer 1 30,
   Element.para "Heading2" "1. Requisitos do Sistema",
   Element.spacer 1 12,
   Element.para "Heading3" "1.1 Requisitos Funcionais",
   Element.para "Heading3" "1.2 Requisitos Não Funcionais",
   Element.para "Heading2" "2. Fluxo de Componentes",
   Element.spacer 1 12,
   Element.para "Heading2" "3. Mapa de APIs",
   Element.spacer 1 12]

/-- C3, counterexample to the claim as stated: rendering a bundle of
error markers succeeds, but no element of the output mentions the
marker's fields — neither the original raw text nor the error message is
printed anywhere, so the renderer does not degrade to printing the
marker's fields literally; it silently omits them. -/
theorem c3_marker_fields_never_printed :
    gerar_pdf (error_marker "I cannot comply.")
        (error_marker "I cannot comply.") (error_marker "I cannot comply.") =
      .ok marker_bundle_render ∧
    (marker_bundle_render.all fun e =>
        !(textMentions "I cannot comply." e ||
          textMentions "Não foi possível gerar um JSON válido" e)) = true :=
  ⟨rfl, by decide⟩

theorem natCharsAux_acc (fuel : Nat) :
    ∀ (n : Nat) (acc : List Char),
      natCharsAux fuel n acc = natCharsAux fuel n [] ++ acc := by
  induction fuel with
  | zero => intro n acc; simp [natCharsAux]
  | succ f ih =>
      intro n acc
      by_cases h : n < 10
      · simp [natCharsAux, h]
      · simp only [natCharsAux, if_neg h]
        rw [ih (n / 10) (Char.ofNat (48 + n % 10) :: acc),
          ih (n / 10) [Char.ofNat (48 + n % 10)]]
        simp

theorem natCharsAux_fuel :
    ∀ (n f1 f2 : Nat), n ≤ f1 → n ≤ f2 → ∀ acc,
      natCharsAux f1 n acc = natCharsAux f2 n acc := by
  intro n
  induction n using Nat.strong_induction_on with
  | _ n ih =>
      intro f1 f2 h1 h2 acc
      by_cases hn : n < 10
      · cases f1 <;> cases f2 <;>
          simp [natCharsAux, hn, Nat.mod_eq_of_lt hn]
      · obtain ⟨g1, rfl⟩ : ∃ g, f1 = g + 1 := ⟨f1 - 1, by omega⟩
        obtain ⟨g2, rfl⟩ : ∃ g, f2 = g + 1 := ⟨f2 - 1, by omega⟩
        simp only [natCharsAux, if_neg hn]
        exact ih (n / 10) (Nat.div_lt_self (by omega) (by omega))
          g1 g2 (by omega) (by omega) _

theorem natChars_unfold (n : Nat) :
    natChars n =
      (if n < 10 then [] else natChars (n / 10)) ++
        [Char.ofNat (48 + n % 10)] := by
  by_cases h : n < 10
  · cases n with
    | zero => simp [natChars, natCharsAux]
    | succ m =>
        simp only [natChars, natCharsAux, if_pos h, h, if_true]
        simp [Nat.mod_eq_of_lt h]
  · obtain ⟨g, rfl⟩ : ∃ g, n = g + 1 := ⟨n - 1, by omega⟩
    simp only [natChars, if_neg h, natCharsAux]
    rw [natCharsAux_acc]
    congr 1
    exact natCharsAux_fuel ((g + 1) / 10) g ((g + 1) / 10) (by omega)
      (le_refl _) []

theorem digit_char_spec (k : Nat) (h : k < 10) :
    (Char.ofNat (48 + k)).toNat = 48 + k ∧
      decDigit (Char.ofNat (48 + k)) = true := by
  interval_cases k <;> exact ⟨rfl, rfl⟩

theorem natChars_digits (n : Nat) : ∀ c ∈ natChars n, decDigit c = true := by
  induction n using Nat.strong_induction_on with
  | _ n ih =>
      rw [natChars_unfold]
      intro c hc
      rw [List.mem_append] at hc
      rcases hc with hc | hc
      · by_cases h : n < 10
        · simp [h] at hc
        · exact ih (n / 10) (Nat.div_lt_self (by omega) (by omega)) c
            (by simpa [h] using hc)
      · rw [List.mem_singleton] at hc
        subst hc
        exact (digit_char_spec (n % 10) (Nat.mod_lt _ (by omega))).2

theorem natChars_ne_nil (n : Nat) : natChars n ≠ [] := by
  rw [natChars_unfold]
  simp

theorem digitsVal_natChars (n : Nat) : digitsVal (natChars n) = n := by
  induction n using Nat.strong_induction_on with
  | _ n ih =>
      rw [natChars_unfold]
      unfold digitsVal
      rw [List.foldl_append]
      by_cases h : n < 10
      · simp only [if_pos h, List.foldl_nil, List.foldl_cons]
        rw [(digit_char_spec (n % 10) (Nat.mod_lt _ (by omega))).1]
        omega
      · simp only [if_neg h, List.foldl_cons, List.foldl_nil]
        have := ih (n / 10) (Nat.div_lt_self (by omega) (by omega))
        unfold digitsVal at this
        rw [this, (digit_char_spec (n % 10) (Nat.mod_lt _ (by omega))).1]
        omega

/-- A list whose head cannot extend a digit run. -/
def notDigitStart : List Char → Bool
  | [] => true
  | c :: _ => !decDigit c

theorem digitSpan_stop (cs : List Char) (h : notDigitStart cs = true) :
    digitSpan cs = ([], cs) := by
  match cs with
  | [] => rfl
  | c :: t =>
      simp only [notDigitStart, Bool.not_eq_true'] at h
      simp [digitSpan, h]

theorem digitSpan_run (ds : List Char) (hds : ∀ c ∈ ds, decDigit c = true)
    (rest : List Char) (hrest : notDigitStart rest = true) :
    digitSpan (ds ++ rest) = (ds, rest) := by
  induction ds with
  | nil => simpa using digitSpan_stop rest hrest
  | cons c t ih =>
      have hc : decDigit c = true := hds c (by simp)
      have ht := ih fun x hx => hds x (by simp [hx])
      simp [digitSpan, hc, ht]

theorem natChars_head_shape (n : Nat) :
    ∃ c t, natChars n = c :: t ∧ decDigit c = true ∧ (1 ≤ n → c ≠ '0') := by
  induction n using Nat.strong_induction_on with
  | _ n ih =>
      by_cases h : n < 10
      · refine ⟨Char.ofNat (48 + n % 10), [], ?_, ?_, ?_⟩
        · rw [natChars_unfold]; simp [h]
        · exact (digit_char_spec (n % 10) (Nat.mod_lt _ (by omega))).2
        · intro h1 he
          have := congrArg Char.toNat he
          rw [(digit_char_spec (n % 10) (Nat.mod_lt _ (by omega))).1] at this
          have h0 : ('0' : Char).toNat = 48 := rfl
          rw [h0] at this
          omega
      · obtain ⟨c, t, hct, hc, h0⟩ :=
          ih (n / 10) (Nat.div_lt_self (by omega) (by omega))
        refine ⟨c, t ++ [Char.ofNat (48 + n % 10)], ?_, hc, ?_⟩
        · rw [natChars_unfold, if_neg h, hct]
          simp
        · intro _
          exact h0 (by omega)

theorem digit_not_minus (c : Char) (h : decDigit c = true) : c ≠ '-' := by
  intro he
  rw [he] at h
  exact absurd h (by decide)

theorem intToken_chars (n : Int) (rest : List Char)
    (hrest : notDigitStart rest = true) :
    intToken (intChars n ++ rest) = some (n, rest) := by
  rcases lt_trichotomy n 0 with hn | rfl | hn
  · have hm : 1 ≤ n.natAbs := by omega
    obtain ⟨c, t, hct, hc, h0⟩ := natChars_head_shape n.natAbs
    have hc0 : c ≠ '0' := h0 hm
    have harg : intChars n ++ rest = '-' :: (c :: (t ++ rest)) := by
      simp [intChars, hn, hct]
    rw [harg]
    have hspan : digitSpan (t ++ rest) = (t, rest) :=
      digitSpan_run t
        (fun x hx => natChars_digits n.natAbs x (hct ▸ List.mem_cons_of_mem c hx))
        rest hrest
    have hval : digitsVal (c :: t) = n.natAbs := by
      have := digitsVal_natChars n.natAbs
      rwa [hct] at this
    simp only [intToken, hc, hc0, hspan, hval]
    simp [hc0]
    simp [abs_of_nonpos (le_of_lt hn)]
  · have h0 : intChars 0 = ['0'] := by decide
    rw [h0]
    simp [intToken]
  · have hm : 1 ≤ n.natAbs := by omega
    obtain ⟨c, t, hct, hc, h0⟩ := natChars_head_shape n.natAbs
    have hc0 : c ≠ '0' := h0 hm
    have hcm : c ≠ '-' := digit_not_minus c hc
    have hnn : ¬ n < 0 := by omega
    have harg : intChars n ++ rest = c :: (t ++ rest) := by
      simp [intChars, hnn, hct]
    rw [harg]
    have hspan : digitSpan (t ++ rest) = (t, rest) :=
      digitSpan_run t
        (fun x hx => natChars_digits n.natAbs x (hct ▸ List.mem_cons_of_mem c hx))
        rest hrest
    have hval : digitsVal (c :: t) = n.natAbs := by
      have := digitsVal_natChars n.natAbs
      rwa [hct] at this
    simp only [intToken]
    simp [hcm, hc0, hc, hspan]
    rw [hval]
    omega

theorem hexDigitVal_hexDigitChar (k : Nat) (h : k < 16) :
    hexDigitVal (hexDigitChar k) = some k := by
  interval_cases k <;> rfl

theorem hexQuad_encode (n : Nat) (hn : n < 0x10000) :
    hexQuad (hexDigitChar (n / 4096 % 16)) (hexDigitChar (n / 256 % 16))
      (hexDigitChar (n / 16 % 16)) (hexDigitChar (n % 16)) = some n := by
  have h16 : ∀ k : Nat, k % 16 < 16 := fun k => Nat.mod_lt _ (by omega)
  rw [hexQuad]
  simp only [hexDigitVal_hexDigitChar _ (h16 _), Option.bind_eq_bind,
    Option.some_bind]
  exact congrArg some (by omega)



theorem stringBody_uEscape (n : Nat) (hn : n < 0x20) (acc rest : List Char) :
    stringBody acc (uEscape n ++ rest) =
      stringBody (Char.ofNat n :: acc) rest := by
  show stringBody acc
      ('\\' :: 'u' :: hexDigitChar (n / 4096 % 16) ::
        hexDigitChar (n / 256 % 16) :: hexDigitChar (n / 16 % 16) ::
        hexDigitChar (n % 16) :: rest) = stringBody (Char.ofNat n :: acc) rest
  have s1 : ∀ cs, stringBody acc ('\\' :: cs) = escSeq acc cs := by
    intro cs
    simp [stringBody]
  rw [s1]
  have s2 : ∀ c1 c2 c3 c4 cs,
      escSeq acc ('u' :: c1 :: c2 :: c3 :: c4 :: cs) =
        uSeq acc (c1 :: c2 :: c3 :: c4 :: cs) := by
    intro c1 c2 c3 c4 cs
    simp [escSeq]
  rw [s2]
  have hq := hexQuad_encode n (by omega)
  generalize hexDigitChar (n / 4096 % 16) = a at hq ⊢
  generalize hexDigitChar (n / 256 % 16) = b at hq ⊢
  generalize hexDigitChar (n / 16 % 16) = c at hq ⊢
  generalize hexDigitChar (n % 16) = d at hq ⊢
  simp only [uSeq, hq]
  rw [if_pos (by simp [decide_eq_true_eq]; omega)]

theorem stringBody_escape (c : Char) (acc rest : List Char) :
    stringBody acc (escapeChar false c ++ rest) = stringBody (c :: acc) rest := by
  by_cases h1 : c = '"'
  · subst h1
    show stringBody acc ('\\' :: '"' :: rest) = _
    simp only [stringBody, escSeq]
    simp [escapeShort]
  by_cases h2 : c = '\\'
  · subst h2
    show stringBody acc ('\\' :: '\\' :: rest) = _
    simp only [stringBody, escSeq]
    simp [escapeShort]
  by_cases h3 : c = '\n'
  · subst h3
    show stringBody acc ('\\' :: 'n' :: rest) = _
    simp only [stringBody, escSeq]
    simp [escapeShort]
  by_cases h4 : c = '\r'
  · subst h4
    show stringBody acc ('\\' :: 'r' :: rest) = _
    simp only [stringBody, escSeq]
    simp [escapeShort]
  by_cases h5 : c = '\t'
  · subst h5
    show stringBody acc ('\\' :: 't' :: rest) = _
    simp only [stringBody, escSeq]
    simp [escapeShort]
  by_cases h6 : c.toNat = 8
  · have hc : c = Char.ofNat 8 := by rw [← h6, Char.ofNat_toNat]
    have he : escapeChar false c = ['\\', 'b'] := by
      rw [escapeChar, if_neg h1, if_neg h2, if_neg h3, if_neg h4, if_neg h5,
        if_pos h6]
    rw [he, hc]
    show stringBody acc ('\\' :: 'b' :: rest) = _
    simp only [stringBody, escSeq]
    simp [escapeShort]
  by_cases h7 : c.toNat = 12
  · have hc : c = Char.ofNat 12 := by rw [← h7, Char.ofNat_toNat]
    have he : escapeChar false c = ['\\', 'f'] := by
      rw [escapeChar, if_neg h1, if_neg h2, if_neg h3, if_neg h4, if_neg h5,
        if_neg h6, if_pos h7]
    rw [he, hc]
    show stringBody acc ('\\' :: 'f' :: rest) = _
    simp only [stringBody, escSeq]
    simp [escapeShort]
  by_cases h8 : c.toNat < 0x20
  · have he : escapeChar false c = uEscape c.toNat := by
      rw [escapeChar, if_neg h1, if_neg h2, if_neg h3, if_neg h4, if_neg h5,
        if_neg h6, if_neg h7, if_pos h8]
    rw [he, stringBody_uEscape c.toNat h8, Char.ofNat_toNat]
  · have he : escapeChar false c = [c] := by
      rw [escapeChar, if_neg h1, if_neg h2, if_neg h3, if_neg h4, if_neg h5,
        if_neg h6, if_neg h7, if_neg h8]
      simp
    rw [he]
    simp only [List.cons_append, List.nil_append]
    simp only [stringBody]
    rw [if_neg h1, if_neg h2, if_neg h8]

theorem stringBody_flat (cs : List Char) :
    ∀ (acc rest : List Char),
      stringBody acc (cs.flatMap (escapeChar false) ++ '"' :: rest) =
        some (String.mk (acc.reverse ++ cs), rest) := by
  induction cs with
  | nil =>
      intro acc rest
      simp only [List.flatMap_nil, List.nil_append]
      simp only [stringBody]
      simp
  | cons c cs ih =>
      intro acc rest
      rw [List.flatMap_cons, List.append_assoc, stringBody_escape, ih]
      simp

theorem stringLit_parse (s : String) (fuel : Nat) (rest : List Char) :
    jsonValue (fuel + 1) (stringLit false s ++ rest) = some (PyVal.str s, rest) := by
  show jsonValue (fuel + 1)
      ('"' :: (s.data.flatMap (escapeChar false) ++ ['"'] ++ rest)) = _
  simp only [jsonValue]
  rw [List.append_assoc]
  simp only [List.cons_append, List.nil_append]
  rw [stringBody_flat]
  simp

theorem jsonWs_not_digit (c : Char) (h : jsonWs c = true) :
    decDigit c = false := by
  simp only [jsonWs, Bool.or_eq_true, decide_eq_true_eq] at h
  rcases h with ((rfl | rfl) | rfl) | rfl <;> decide

theorem dropWs_ws_lead (w : List Char) (hw : ∀ c ∈ w, jsonWs c = true) :
    ∀ cs, dropWs (w ++ cs) = dropWs cs := by
  induction w with
  | nil => intro cs; rfl
  | cons c t ih =>
      intro cs
      have hc : jsonWs c = true := hw c (by simp)
      simp only [List.cons_append, dropWs, hc, if_true]
      exact ih (fun x hx => hw x (by simp [hx])) cs

theorem dropWs_not_ws (c : Char) (cs : List Char) (h : jsonWs c = false) :
    dropWs (c :: cs) = c :: cs := by
  simp [dropWs, h]

theorem newlinePad_ws (lvl : Nat) :
    ∀ c ∈ newlinePad (some 2) lvl, jsonWs c = true := by
  intro c hc
  simp only [newlinePad, List.mem_cons] at hc
  rcases hc with rfl | hc
  · decide
  · rw [List.eq_of_mem_replicate hc]
    decide

/-- Heads of printed values: never whitespace, digits-or-minus for
numbers, an opening quote/bracket otherwise — in particular never a
closing bracket, brace or comma. -/
theorem dumpVal_head (v : PyVal) (lvl : Nat) :
    ∃ c t, dumpVal false (some 2) lvl v = c :: t ∧ jsonWs c = false ∧
      c ≠ ']' ∧ c ≠ '\x7d' := by
  cases v with
  | none => refine ⟨'n', _, rfl, ?_, ?_, ?_⟩ <;> decide
  | bool b =>
      cases b with
      | true => refine ⟨'t', _, rfl, ?_, ?_, ?_⟩ <;> decide
      | false => refine ⟨'f', _, rfl, ?_, ?_, ?_⟩ <;> decide
  | str s => refine ⟨'"', _, rfl, ?_, ?_, ?_⟩ <;> decide
  | int n =>
      by_cases hn : n < 0
      · refine ⟨'-', natChars n.natAbs, ?_, by decide, by decide, by decide⟩
        simp [dumpVal, intChars, hn]
      · obtain ⟨c, t, hct, hc, -⟩ := natChars_head_shape n.natAbs
        refine ⟨c, t, ?_, ?_, ?_, ?_⟩
        · simp [dumpVal, intChars, hn, hct]
        · cases hws : jsonWs c
          · rfl
          · rw [jsonWs_not_digit c hws] at hc
            exact absurd hc (by simp)
        · intro he
          rw [he] at hc
          exact absurd hc (by decide)
        · intro he
          rw [he] at hc
          exact absurd hc (by decide)
  | list xs =>
      cases xs with
      | nil => refine ⟨'[', _, rfl, ?_, ?_, ?_⟩ <;> decide
      | cons x t => refine ⟨'[', _, rfl, ?_, ?_, ?_⟩ <;> decide
  | dict kvs =>
      cases kvs with
      | nil => refine ⟨'\x7b', _, rfl, ?_, ?_, ?_⟩ <;> decide
      | cons kv t =>
          obtain ⟨k, v⟩ := kv
          refine ⟨'\x7b', _, rfl, ?_, ?_, ?_⟩ <;> decide

theorem dropWs_dumpVal (v : PyVal) (lvl : Nat) (x : List Char) :
    dropWs (dumpVal false (some 2) lvl v ++ x) =
      dumpVal false (some 2) lvl v ++ x := by
  obtain ⟨c, t, hct, hws, -, -⟩ := dumpVal_head v lvl
  rw [hct, List.cons_append, dropWs_not_ws _ _ hws]

theorem dictPut_missing (k : String) (v : PyVal) :
    ∀ acc, (acc.any fun kv => kv.1 = k) = false →
      dictPut acc k v = acc ++ [(k, v)] := by
  intro acc
  induction acc with
  | nil => intro _; rfl
  | cons kv rest ih =>
      obtain ⟨k2, v2⟩ := kv
      intro h
      simp only [List.any_cons, Bool.or_eq_false_iff,
        decide_eq_false_iff_not] at h
      obtain ⟨hk, hrest⟩ := h
      simp only [dictPut, if_neg hk, List.cons_append, List.cons.injEq,
        true_and]
      exact ih (by simpa using hrest)

/-- Keys pairwise distinct (what a parsed object always satisfies, and
what the combined download's three payload keys satisfy). -/
def keysDistinct : List (String × PyVal) → Bool
  | [] => true
  | (k, _) :: rest =>
      !(rest.any fun kv => kv.1 = k) && keysDistinct rest

theorem dictOfPairs_go (pairs : List (String × PyVal)) :
    ∀ acc, keysDistinct pairs = true →
      (pairs.all fun kv => !(acc.any fun p => p.1 = kv.1)) = true →
      pairs.foldl (fun a kv => dictPut a kv.1 kv.2) acc = acc ++ pairs := by
  induction pairs with
  | nil => intro acc _ _; simp
  | cons kv rest ih =>
      obtain ⟨k, v⟩ := kv
      intro acc hdist hacc
      simp only [keysDistinct, Bool.and_eq_true, Bool.not_eq_true'] at hdist
      obtain ⟨hknotin, hrest⟩ := hdist
      simp only [List.all_cons, Bool.and_eq_true, Bool.not_eq_true'] at hacc
      obtain ⟨hk, hall⟩ := hacc
      simp only [List.foldl_cons]
      rw [dictPut_missing k v acc hk]
      rw [ih (acc ++ [(k, v)]) hrest ?_]
      · simp
      · simp only [List.all_eq_true] at hall ⊢
        intro kv2 hkv2
        have h1 : (acc.any fun p => p.1 = kv2.1) = false := by
          simpa using hall kv2 hkv2
        have h2 : ¬ k = kv2.1 := by
          intro he
          have : (rest.any fun p => p.1 = k) = true :=
            List.any_eq_true.mpr ⟨kv2, hkv2, by simp [he]⟩
          rw [this] at hknotin
          cases hknotin
        simp [List.any_append, h1, h2]

theorem dictOfPairs_distinct (pairs : List (String × PyVal))
    (h : keysDistinct pairs = true) : dictOfPairs pairs = pairs := by
  have := dictOfPairs_go pairs [] h (by simp)
  simpa [dictOfPairs] using this

theorem digit_char_cases (c : Char) (hc : decDigit c = true) :
    c = '0' ∨ c = '1' ∨ c = '2' ∨ c = '3' ∨ c = '4' ∨ c = '5' ∨ c = '6' ∨
      c = '7' ∨ c = '8' ∨ c = '9' := by
  simp only [decDigit, Bool.and_eq_true, decide_eq_true_eq] at hc
  obtain ⟨h1, h2⟩ := hc
  have hofn : Char.ofNat c.toNat = c := Char.ofNat_toNat c
  interval_cases h : c.toNat <;> rw [← hofn] <;> decide

theorem jsonValue_digit_head (f : Nat) (c : Char) (t : List Char)
    (hc : decDigit c = true) :
    jsonValue (f + 1) (c :: t) =
      match intToken (c :: t) with
      | some (n, r) => some (PyVal.int n, r)
      | _ => Option.none := by
  rcases digit_char_cases c hc with
    rfl | rfl | rfl | rfl | rfl | rfl | rfl | rfl | rfl | rfl <;> rfl

mutual

/-- Dictionary keys are pairwise distinct at every level (true of every
value `json_loads` produces, and preserved by the download's wrapper). -/
def wfKeys : PyVal → Bool
  | .none => true
  | .bool _ => true
  | .int _ => true
  | .str _ => true
  | .list xs => wfKeysList xs
  | .dict kvs => keysDistinct kvs && wfKeysPairs kvs

/-- `wfKeys` on every element. -/
def wfKeysList : List PyVal → Bool
  | [] => true
  | x :: xs => wfKeys x && wfKeysList xs

/-- `wfKeys` on every member value. -/
def wfKeysPairs : List (String × PyVal) → Bool
  | [] => true
  | (_, v) :: kvs => wfKeys v && wfKeysPairs kvs

end

theorem ws_close_notDigit (w rest : List Char)
    (hw : ∀ c ∈ w, jsonWs c = true) (c0 : Char) (h0 : decDigit c0 = false) :
    notDigitStart (w ++ c0 :: rest) = true := by
  cases w with
  | nil => simp [notDigitStart, h0]
  | cons c t =>
      have := jsonWs_not_digit c (hw c (by simp))
      simp [notDigitStart, this]

theorem dropWs_ws_close (w rest : List Char)
    (hw : ∀ c ∈ w, jsonWs c = true) (c0 : Char) (h0 : jsonWs c0 = false) :
    dropWs (w ++ c0 :: rest) = c0 :: rest := by
  rw [dropWs_ws_lead w hw, dropWs_not_ws _ _ h0]

theorem jsonPairs_key (f : Nat) (k : String) (R : List Char) :
    jsonPairs (f + 1) (stringLit false k ++ R) =
      match dropWs R with
      | ':' :: r2 =>
          match jsonValue f (dropWs r2) with
          | some (v, r3) =>
              match dropWs r3 with
              | ',' :: r4 =>
                  match jsonPairs f (dropWs r4) with
                  | some (ps, r5) => some ((k, v) :: ps, r5)
                  | _ => Option.none
              | '\x7d' :: r4 => some ([(k, v)], r4)
              | _ => Option.none
          | _ => Option.none
      | _ => Option.none := by
  show jsonPairs (f + 1)
      ('"' :: (k.data.flatMap (escapeChar false) ++ ['"'] ++ R)) = _
  simp only [jsonPairs]
  rw [List.append_assoc]
  simp only [List.cons_append, List.nil_append]
  rw [stringBody_flat]
  simp

mutual

theorem rt_val : ∀ (v : PyVal) (fuel lvl : Nat) (rest : List Char),
    wfKeys v = true →
    (dumpVal false (some 2) lvl v).length < fuel →
    notDigitStart rest = true →
    jsonValue fuel (dumpVal false (some 2) lvl v ++ rest) = some (v, rest)
  | .none, fuel, lvl, rest, _, hf, _ => by
      cases fuel with
      | zero => simp [dumpVal] at hf
      | succ f => simp [dumpVal, jsonValue]
  | .bool true, fuel, lvl, rest, _, hf, _ => by
      cases fuel with
      | zero => simp [dumpVal] at hf
      | succ f => simp [dumpVal, jsonValue]
  | .bool false, fuel, lvl, rest, _, hf, _ => by
      cases fuel with
      | zero => simp [dumpVal] at hf
      | succ f => simp [dumpVal, jsonValue]
  | .str s, fuel, lvl, rest, _, hf, _ => by
      cases fuel with
      | zero => simp [dumpVal, stringLit] at hf
      | succ f =>
          show jsonValue (f + 1) (stringLit false s ++ rest) = _
          exact stringLit_parse s f rest
  | .int n, fuel, lvl, rest, _, hf, hrest => by
      cases fuel with
      | zero => exact absurd hf (by omega)
      | succ f => exact rt_int n f lvl rest hrest
  | .list [], fuel, lvl, rest, _, hf, _ => by
      cases fuel with
      | zero => simp [dumpVal] at hf
      | succ f =>
          have h1 : jsonWs ']' = false := by decide
          simp [dumpVal, jsonValue, dropWs, h1]
  | .list (x :: xs), fuel, lvl, rest, hwf, hf, _ => by
      cases fuel with
      | zero => exact absurd hf (by omega)
      | succ f =>
          simp only [wfKeys, wfKeysList, Bool.and_eq_true] at hwf
          have hpad1 : ∀ c ∈ '\n' :: List.replicate ((lvl + 1) * 2) ' ',
              jsonWs c = true := by
            intro c hc
            simp only [List.mem_cons] at hc
            rcases hc with rfl | hc
            · decide
            · rw [List.eq_of_mem_replicate hc]
              decide
          have hpad0 : ∀ c ∈ '\n' :: List.replicate (lvl * 2) ' ',
              jsonWs c = true := by
            intro c hc
            simp only [List.mem_cons] at hc
            rcases hc with rfl | hc
            · decide
            · rw [List.eq_of_mem_replicate hc]
              decide
          have hflen : (dumpVal false (some 2) (lvl + 1) x ++
              dumpItemsTail false (some 2) (lvl + 1) xs).length + 1 < f := by
            simp only [dumpVal, newlinePad, List.length_cons, List.length_append,
              List.length_replicate, List.length_singleton] at hf
            simp only [List.length_append]
            omega
          have hIH := rt_items x xs f (lvl + 1)
            ('\n' :: List.replicate (lvl * 2) ' ') rest hwf.1 hwf.2 hflen hpad0
          simp only [List.append_assoc, List.cons_append] at hIH
          simp only [dumpVal, newlinePad, List.cons_append, List.append_assoc,
            List.singleton_append, List.nil_append]
          simp only [jsonValue]
          have hd2 : dropWs ('\n' :: (List.replicate ((lvl + 1) * 2) ' ' ++
              (dumpVal false (some 2) (lvl + 1) x ++
                (dumpItemsTail false (some 2) (lvl + 1) xs ++
                  ('\n' :: (List.replicate (lvl * 2) ' ' ++ (']' :: rest))))))) =
              dumpVal false (some 2) (lvl + 1) x ++
                (dumpItemsTail false (some 2) (lvl + 1) xs ++
                  ('\n' :: (List.replicate (lvl * 2) ' ' ++ (']' :: rest)))) := by
            have hsh : ('\n' :: (List.replicate ((lvl + 1) * 2) ' ' ++
                (dumpVal false (some 2) (lvl + 1) x ++
                  (dumpItemsTail false (some 2) (lvl + 1) xs ++
                    ('\n' :: (List.replicate (lvl * 2) ' ' ++ (']' :: rest))))))) =
                ('\n' :: List.replicate ((lvl + 1) * 2) ' ') ++
                  (dumpVal false (some 2) (lvl + 1) x ++
                    (dumpItemsTail false (some 2) (lvl + 1) xs ++
                      ('\n' :: (List.replicate (lvl * 2) ' ' ++ (']' :: rest))))) := by
              simp
            rw [hsh, dropWs_ws_lead _ hpad1]
            exact dropWs_dumpVal x (lvl + 1) _
          simp only [hd2]
          obtain ⟨c, t, hct, -, hcb, -⟩ := dumpVal_head x (lvl + 1)
          split
          · next r2 heq =>
              rw [hct] at heq
              simp only [List.cons_append] at heq
              exact absurd (List.head_eq_of_cons_eq heq) hcb
          · next cs2 hne =>
              rw [hIH]
  | .dict [], fuel, lvl, rest, _, hf, _ => by
      cases fuel with
      | zero => simp [dumpVal] at hf
      | succ f =>
          have h1 : jsonWs (Char.ofNat 125) = false := by decide
          simp [dumpVal, jsonValue, dropWs, h1]
  | .dict ((k, v) :: kvs), fuel, lvl, rest, hwf, hf, _ => by
      cases fuel with
      | zero => exact absurd hf (by omega)
      | succ f =>
          simp only [wfKeys, wfKeysPairs, Bool.and_eq_true] at hwf
          obtain ⟨hdist, hwv, hwkvs⟩ := hwf
          have hpad1 : ∀ c ∈ '\n' :: List.replicate ((lvl + 1) * 2) ' ',
              jsonWs c = true := by
            intro c hc
            simp only [List.mem_cons] at hc
            rcases hc with rfl | hc
            · decide
            · rw [List.eq_of_mem_replicate hc]
              decide
          have hpad0 : ∀ c ∈ '\n' :: List.replicate (lvl * 2) ' ',
              jsonWs c = true := by
            intro c hc
            simp only [List.mem_cons] at hc
            rcases hc with rfl | hc
            · decide
            · rw [List.eq_of_mem_replicate hc]
              decide
          have hflen : ((stringLit false k ++
              (':' :: ' ' :: dumpVal false (some 2) (lvl + 1) v)) ++
              dumpPairsTail false (some 2) (lvl + 1) kvs).length + 1 < f := by
            simp only [dumpVal, newlinePad, List.length_cons, List.length_append,
              List.length_replicate, List.length_singleton] at hf
            simp only [List.length_append, List.length_cons]
            omega
          have hP := rt_pairs k v kvs f (lvl + 1)
            ('\n' :: List.replicate (lvl * 2) ' ') rest hwv hwkvs hflen hpad0
          simp only [List.append_assoc, List.cons_append] at hP
          simp only [dumpVal, newlinePad, List.cons_append, List.append_assoc,
            List.singleton_append, List.nil_append]
          simp only [jsonValue]
          have hd2 : dropWs ('\n' :: (List.replicate ((lvl + 1) * 2) ' ' ++
              (stringLit false k ++
                (':' :: ' ' :: (dumpVal false (some 2) (lvl + 1) v ++
                  (dumpPairsTail false (some 2) (lvl + 1) kvs ++
                    ('\n' :: (List.replicate (lvl * 2) ' ' ++
                      (Char.ofNat 125 :: rest))))))))) =
              stringLit false k ++
                (':' :: ' ' :: (dumpVal false (some 2) (lvl + 1) v ++
                  (dumpPairsTail false (some 2) (lvl + 1) kvs ++
                    ('\n' :: (List.replicate (lvl * 2) ' ' ++
                      (Char.ofNat 125 :: rest)))))) := by
            have hsh : ('\n' :: (List.replicate ((lvl + 1) * 2) ' ' ++
                (stringLit false k ++
                  (':' :: ' ' :: (dumpVal false (some 2) (lvl + 1) v ++
                    (dumpPairsTail false (some 2) (lvl + 1) kvs ++
                      ('\n' :: (List.replicate (lvl * 2) ' ' ++
                        (Char.ofNat 125 :: rest))))))))) =
                ('\n' :: List.replicate ((lvl + 1) * 2) ' ') ++
                  (stringLit false k ++
                    (':' :: ' ' :: (dumpVal false (some 2) (lvl + 1) v ++
                      (dumpPairsTail false (some 2) (lvl + 1) kvs ++
                        ('\n' :: (List.replicate (lvl * 2) ' ' ++
                          (Char.ofNat 125 :: rest))))))) := by
              simp
            rw [hsh, dropWs_ws_lead _ hpad1]
            simp only [stringLit, List.cons_append]
            exact dropWs_not_ws _ _ (by decide)
          simp only [hd2]
          split
          · next r2 heq =>
              simp only [stringLit, List.cons_append] at heq
              exact absurd (List.head_eq_of_cons_eq heq) (by decide)
          · next cs2 hne =>
              rw [hP]
              simp only [dictOfPairs_distinct _ hdist]
termination_by v _ _ _ => sizeOf v

theorem rt_int : ∀ (n : Int) (f lvl : Nat) (rest : List Char),
    notDigitStart rest = true →
    jsonValue (f + 1) (dumpVal false (some 2) lvl (.int n) ++ rest) =
      some (PyVal.int n, rest) := by
  intro n f lvl rest hrest
  show jsonValue (f + 1) (intChars n ++ rest) = some (PyVal.int n, rest)
  have htok := intToken_chars n rest hrest
  by_cases hn : n < 0
  · have harg : intChars n ++ rest = '-' :: (natChars n.natAbs ++ rest) := by
      simp [intChars, hn]
    rw [harg] at htok ⊢
    have hstep : jsonValue (f + 1) ('-' :: (natChars n.natAbs ++ rest)) =
        match intToken ('-' :: (natChars n.natAbs ++ rest)) with
        | some (m, r) => some (PyVal.int m, r)
        | _ => Option.none := rfl
    rw [hstep, htok]
  · obtain ⟨c, t, hct, hc, h0⟩ := natChars_head_shape n.natAbs
    have harg : intChars n ++ rest = c :: (t ++ rest) := by
      simp [intChars, hn, hct]
    rw [harg] at htok ⊢
    rw [jsonValue_digit_head f c (t ++ rest) hc, htok]

theorem rt_items : ∀ (x : PyVal) (xs : List PyVal) (fuel lvl : Nat)
    (w rest : List Char),
    wfKeys x = true → wfKeysList xs = true →
    (dumpVal false (some 2) lvl x ++
      dumpItemsTail false (some 2) lvl xs).length + 1 < fuel →
    (∀ c ∈ w, jsonWs c = true) →
    jsonItems fuel
        ((dumpVal false (some 2) lvl x ++ dumpItemsTail false (some 2) lvl xs) ++
          (w ++ ']' :: rest)) =
      some (x :: xs, rest)
  | x, [], fuel, lvl, w, rest, hwx, _, hf, hw => by
      cases fuel with
      | zero => exact absurd hf (by omega)
      | succ f =>
          simp only [dumpItemsTail, List.append_nil] at hf ⊢
          have hfx : (dumpVal false (some 2) lvl x).length < f := by omega
          have hnd : notDigitStart (w ++ ']' :: rest) = true :=
            ws_close_notDigit w rest hw ']' (by decide)
          simp only [jsonItems]
          rw [rt_val x f lvl (w ++ ']' :: rest) hwx hfx hnd]
          simp [dropWs_ws_close w rest hw ']' (by decide)]
  | x, y :: ys, fuel, lvl, w, rest, hwx, hwxs, hf, hw => by
      cases fuel with
      | zero => exact absurd hf (by omega)
      | succ f =>
          simp only [wfKeysList, Bool.and_eq_true] at hwxs
          obtain ⟨hwy, hwys⟩ := hwxs
          simp only [dumpItemsTail, itemSepa] at hf ⊢
          have hfx : (dumpVal false (some 2) lvl x).length < f := by
            simp only [List.length_append, List.length_cons] at hf
            omega
          have hfy : (dumpVal false (some 2) lvl y ++
              dumpItemsTail false (some 2) lvl ys).length + 1 < f := by
            simp only [List.length_append, List.length_cons] at hf ⊢
            omega
          have hpad : ∀ c ∈ '\n' :: List.replicate (lvl * 2) ' ',
              jsonWs c = true := by
            intro c hc
            simp only [List.mem_cons] at hc
            rcases hc with rfl | hc
            · decide
            · rw [List.eq_of_mem_replicate hc]
              decide
          simp only [jsonItems, List.cons_append, List.append_assoc]
          have hv := rt_val x f lvl
            (',' :: '\n' :: (List.replicate (lvl * 2) ' ' ++
              (dumpVal false (some 2) lvl y ++
                (dumpItemsTail false (some 2) lvl ys ++ (w ++ ']' :: rest)))))
            hwx hfx (by simp [notDigitStart, decDigit])
          have hd1 : dropWs (',' :: '\n' :: (List.replicate (lvl * 2) ' ' ++
              (dumpVal false (some 2) lvl y ++
                (dumpItemsTail false (some 2) lvl ys ++ (w ++ ']' :: rest))))) =
              ',' :: '\n' :: (List.replicate (lvl * 2) ' ' ++
                (dumpVal false (some 2) lvl y ++
                  (dumpItemsTail false (some 2) lvl ys ++ (w ++ ']' :: rest)))) :=
            dropWs_not_ws ',' _ (by decide)
          have hd2 : dropWs ('\n' :: (List.replicate (lvl * 2) ' ' ++
              (dumpVal false (some 2) lvl y ++
                (dumpItemsTail false (some 2) lvl ys ++ (w ++ ']' :: rest))))) =
              dumpVal false (some 2) lvl y ++
                (dumpItemsTail false (some 2) lvl ys ++ (w ++ ']' :: rest)) := by
            have hsh : ('\n' :: (List.replicate (lvl * 2) ' ' ++
                (dumpVal false (some 2) lvl y ++
                  (dumpItemsTail false (some 2) lvl ys ++ (w ++ ']' :: rest))))) =
                ('\n' :: List.replicate (lvl * 2) ' ') ++
                  (dumpVal false (some 2) lvl y ++
                    (dumpItemsTail false (some 2) lvl ys ++ (w ++ ']' :: rest))) := by
              simp
            rw [hsh, dropWs_ws_lead _ hpad]
            exact dropWs_dumpVal y lvl _
          have hIH := rt_items y ys f lvl w rest hwy hwys hfy hw
          simp only [List.append_assoc] at hIH
          simp only [hv, hd1, hd2, hIH]
termination_by x xs _ _ _ _ => sizeOf x + sizeOf xs

theorem rt_pairs : ∀ (k : String) (v : PyVal) (kvs : List (String × PyVal))
    (fuel lvl : Nat) (w rest : List Char),
    wfKeys v = true → wfKeysPairs kvs = true →
    ((stringLit false k ++ (':' :: ' ' :: dumpVal false (some 2) lvl v)) ++
      dumpPairsTail false (some 2) lvl kvs).length + 1 < fuel →
    (∀ c ∈ w, jsonWs c = true) →
    jsonPairs fuel
        (((stringLit false k ++ (':' :: ' ' :: dumpVal false (some 2) lvl v)) ++
            dumpPairsTail false (some 2) lvl kvs) ++
          (w ++ '\x7d' :: rest)) =
      some ((k, v) :: kvs, rest)
  | k, v, [], fuel, lvl, w, rest, hwv, _, hf, hw => by
      cases fuel with
      | zero => exact absurd hf (by omega)
      | succ f =>
          simp only [dumpPairsTail, List.append_nil] at hf ⊢
          have hfv : (dumpVal false (some 2) lvl v).length < f := by
            simp only [List.length_append, List.length_cons] at hf
            omega
          have hnd : notDigitStart (w ++ '\x7d' :: rest) = true :=
            ws_close_notDigit w rest hw _ (by decide)
          have hv := rt_val v f lvl (w ++ '\x7d' :: rest) hwv hfv hnd
          rw [List.append_assoc]
          simp only [List.cons_append]
          rw [jsonPairs_key]
          have hd1 : dropWs (':' :: ' ' :: (dumpVal false (some 2) lvl v ++
              (w ++ '\x7d' :: rest))) =
              ':' :: ' ' :: (dumpVal false (some 2) lvl v ++
                (w ++ '\x7d' :: rest)) :=
            dropWs_not_ws ':' _ (by decide)
          have hd2 : dropWs (' ' :: (dumpVal false (some 2) lvl v ++
              (w ++ '\x7d' :: rest))) =
              dumpVal false (some 2) lvl v ++ (w ++ '\x7d' :: rest) := by
            rw [show dropWs (' ' :: (dumpVal false (some 2) lvl v ++
                (w ++ '\x7d' :: rest))) =
                dropWs (dumpVal false (some 2) lvl v ++ (w ++ '\x7d' :: rest))
              from rfl]
            exact dropWs_dumpVal v lvl _
          have hd3 := dropWs_ws_close w rest hw '\x7d' (by decide)
          simp only [hd1, hd2, hv, hd3]
  | k, v, (k2, v2) :: kvs, fuel, lvl, w, rest, hwv, hwkvs, hf, hw => by
      cases fuel with
      | zero => exact absurd hf (by omega)
      | succ f =>
          simp only [wfKeysPairs, Bool.and_eq_true] at hwkvs
          obtain ⟨hwv2, hwkvs2⟩ := hwkvs
          simp only [dumpPairsTail, itemSepa] at hf ⊢
          have hfv : (dumpVal false (some 2) lvl v).length < f := by
            simp only [List.length_append, List.length_cons] at hf
            omega
          have hfIH : ((stringLit false k2 ++
              (':' :: ' ' :: dumpVal false (some 2) lvl v2)) ++
              dumpPairsTail false (some 2) lvl kvs).length + 1 < f := by
            simp only [List.length_append, List.length_cons] at hf ⊢
            omega
          have hpad0 : ∀ c ∈ '\n' :: List.replicate (lvl * 2) ' ',
              jsonWs c = true := by
            intro c hc
            simp only [List.mem_cons] at hc
            rcases hc with rfl | hc
            · decide
            · rw [List.eq_of_mem_replicate hc]
              decide
          have hIH := rt_pairs k2 v2 kvs f lvl w rest hwv2 hwkvs2 hfIH hw
          simp only [List.append_assoc, List.cons_append] at hIH
          have hv := rt_val v f lvl
            (',' :: '\n' :: (List.replicate (lvl * 2) ' ' ++
              (stringLit false k2 ++
                (':' :: ' ' :: (dumpVal false (some 2) lvl v2 ++
                  (dumpPairsTail false (some 2) lvl kvs ++
                    (w ++ '\x7d' :: rest)))))))
            hwv hfv (by simp [notDigitStart, decDigit])
          simp only [List.cons_append, List.append_assoc]
          rw [jsonPairs_key]
          have hd1 : dropWs (':' :: ' ' :: (dumpVal false (some 2) lvl v ++
              (',' :: '\n' :: (List.replicate (lvl * 2) ' ' ++
                (stringLit false k2 ++
                  (':' :: ' ' :: (dumpVal false (some 2) lvl v2 ++
                    (dumpPairsTail false (some 2) lvl kvs ++
                      (w ++ '\x7d' :: rest))))))))) =
              ':' :: ' ' :: (dumpVal false (some 2) lvl v ++
                (',' :: '\n' :: (List.replicate (lvl * 2) ' ' ++
                  (stringLit false k2 ++
                    (':' :: ' ' :: (dumpVal false (some 2) lvl v2 ++
                      (dumpPairsTail false (some 2) lvl kvs ++
                        (w ++ '\x7d' :: rest)))))))) :=
            dropWs_not_ws ':' _ (by decide)
          have hd2 : dropWs (' ' :: (dumpVal false (some 2) lvl v ++
              (',' :: '\n' :: (List.replicate (lvl * 2) ' ' ++
                (stringLit false k2 ++
                  (':' :: ' ' :: (dumpVal false (some 2) lvl v2 ++
                    (dumpPairsTail false (some 2) lvl kvs ++
                      (w ++ '\x7d' :: rest))))))))) =
              dumpVal false (some 2) lvl v ++
                (',' :: '\n' :: (List.replicate (lvl * 2) ' ' ++
                  (stringLit false k2 ++
                    (':' :: ' ' :: (dumpVal false (some 2) lvl v2 ++
                      (dumpPairsTail false (some 2) lvl kvs ++
                        (w ++ '\x7d' :: rest))))))) := by
            rw [show dropWs (' ' :: (dumpVal false (some 2) lvl v ++
                (',' :: '\n' :: (List.replicate (lvl * 2) ' ' ++
                  (stringLit false k2 ++
                    (':' :: ' ' :: (dumpVal false (some 2) lvl v2 ++
                      (dumpPairsTail false (some 2) lvl kvs ++
                        (w ++ '\x7d' :: rest))))))))) =
                dropWs (dumpVal false (some 2) lvl v ++
                  (',' :: '\n' :: (List.replicate (lvl * 2) ' ' ++
                    (stringLit false k2 ++
                      (':' :: ' ' :: (dumpVal false (some 2) lvl v2 ++
                        (dumpPairsTail false (some 2) lvl kvs ++
                          (w ++ '\x7d' :: rest))))))))
              from rfl]
            exact dropWs_dumpVal v lvl _
          have hd3 : dropWs (',' :: '\n' :: (List.replicate (lvl * 2) ' ' ++
              (stringLit false k2 ++
                (':' :: ' ' :: (dumpVal false (some 2) lvl v2 ++
                  (dumpPairsTail false (some 2) lvl kvs ++
                    (w ++ '\x7d' :: rest))))))) =
              ',' :: '\n' :: (List.replicate (lvl * 2) ' ' ++
                (stringLit false k2 ++
                  (':' :: ' ' :: (dumpVal false (some 2) lvl v2 ++
                    (dumpPairsTail false (some 2) lvl kvs ++
                      (w ++ '\x7d' :: rest)))))) :=
            dropWs_not_ws ',' _ (by decide)
          have hd4 : dropWs ('\n' :: (List.replicate (lvl * 2) ' ' ++
              (stringLit false k2 ++
                (':' :: ' ' :: (dumpVal false (some 2) lvl v2 ++
                  (dumpPairsTail false (some 2) lvl kvs ++
                    (w ++ '\x7d' :: rest))))))) =
              stringLit false k2 ++
                (':' :: ' ' :: (dumpVal false (some 2) lvl v2 ++
                  (dumpPairsTail false (some 2) lvl kvs ++
                    (w ++ '\x7d' :: rest)))) := by
            have hsh : ('\n' :: (List.replicate (lvl * 2) ' ' ++
                (stringLit false k2 ++
                  (':' :: ' ' :: (dumpVal false (some 2) lvl v2 ++
                    (dumpPairsTail false (some 2) lvl kvs ++
                      (w ++ '\x7d' :: rest))))))) =
                ('\n' :: List.replicate (lvl * 2) ' ') ++
                  (stringLit false k2 ++
                    (':' :: ' ' :: (dumpVal false (some 2) lvl v2 ++
                      (dumpPairsTail false (some 2) lvl kvs ++
                        (w ++ '\x7d' :: rest))))) := by
              simp
            rw [hsh, dropWs_ws_lead _ hpad0]
            simp only [stringLit, List.cons_append]
            exact dropWs_not_ws _ _ (by decide)
          simp only [hd1, hd2, hv, hd3, hd4, hIH]
termination_by _ v kvs _ _ _ _ => sizeOf v + sizeOf kvs

end

/-- Parsing back the indented dump recovers the value exactly, for any
value whose dictionaries have recursively distinct keys. -/
theorem json_loads_dumps_pretty (v : PyVal) (h : wfKeys v = true) :
    json_loads (json_dumps_pretty v) = some v := by
  show (match jsonValue (2 * (dumpVal false (some 2) 0 v).length + 2)
      (dropWs (dumpVal false (some 2) 0 v)) with
    | some (w, r) => if dropWs r = [] then some w else Option.none
    | _ => Option.none) = some v
  have hlen : (dumpVal false (some 2) 0 v).length <
      2 * (dumpVal false (some 2) 0 v).length + 2 := by omega
  obtain ⟨c, t, hct, hws, -, -⟩ := dumpVal_head v 0
  rw [hct, dropWs_not_ws _ _ hws, ← hct]
  generalize 2 * (dumpVal false (some 2) 0 v).length + 2 = fuel at hlen ⊢
  rw [show dumpVal false (some 2) 0 v =
      dumpVal false (some 2) 0 v ++ [] from (List.append_nil _).symm]
  rw [rt_val v fuel 0 [] h hlen (by decide)]
  rfl

/-- C7: for every completed run, the combined JSON export — built by
`json.dumps(\x7b"requisitos": .., "fluxo_componentes": .., "mapa_apis": ..\x7d,
indent=2, ensure_ascii=False)` — parses back to exactly the object with
those three top-level keys bound to the three stage payloads verbatim,
provided each payload's dictionaries have recursively distinct keys
(true of everything `ensure_json_response` can produce: parsed objects
deduplicate keys, and the error marker's two keys are distinct). -/
theorem c7_combined_export_roundtrip (r f a : PyVal)
    (hr : wfKeys r = true) (hf : wfKeys f = true) (ha : wfKeys a = true) :
    json_loads (combined_json_download r f a) =
      some (PyVal.dict
        [("requisitos", r), ("fluxo_componentes", f), ("mapa_apis", a)]) := by
  have hwf : wfKeys (PyVal.dict
      [("requisitos", r), ("fluxo_componentes", f), ("mapa_apis", a)]) =
      true := by
    simp [wfKeys, wfKeysPairs, keysDistinct, hr, hf, ha]
  exact json_loads_dumps_pretty _ hwf

/-- Witness for C7 at a run whose stage payloads are a parsed object, a
mixed-type array and the `None` a failed recovery feeds forward. -/
theorem c7_combined_export_roundtrip_witness :
    wfKeys (PyVal.dict [("ok", PyVal.bool true)]) = true ∧
    json_loads (combined_json_download
        (PyVal.dict [("ok", PyVal.bool true)])
        (PyVal.list [PyVal.int (-3), PyVal.str "café"])
        PyVal.none) =
      some (PyVal.dict
        [("requisitos", PyVal.dict [("ok", PyVal.bool true)]),
         ("fluxo_componentes", PyVal.list [PyVal.int (-3), PyVal.str "café"]),
         ("mapa_apis", PyVal.none)]) :=
  ⟨by decide,
   c7_combined_export_roundtrip _ _ _ (by decide) (by decide) (by decide)⟩
